import Mathlib

/-!
Verification of the teacherStudentApp data-access layer.

The development shallowly embeds the server-side storage module and the
route handlers of the classroom-management application: the relational
rows become Lean structures, the database state becomes lists of rows,
and each storage operation or route computation becomes a Lean function
translated from the TypeScript source.  Theorems then settle the
specified properties (attendance-rate and grade-average aggregation,
upsert and idempotency invariants, cascade deletion, login behaviour,
class-code generation, and update frame conditions).
-/

namespace TSA

/-! ## Row types (shared/schema.ts) -/

/-- A row of the `users` table: id, unique username, password, role
(`"teacher"` or `"student"`), display name. -/
structure User where
  id : Nat
  username : String
  password : String
  role : String
  name : String
deriving DecidableEq, Repr

/-- A row of the `classes` table. -/
structure Class where
  id : Nat
  name : String
  subject : String
  description : Option String
  gradeLevel : String
  classCode : String
  teacherId : Nat
  createdAt : Nat
deriving DecidableEq, Repr

/-- A row of the `enrollments` table linking a student to a class. -/
structure Enrollment where
  id : Nat
  studentId : Nat
  classId : Nat
  enrolledAt : Nat
deriving DecidableEq, Repr

/-- A JavaScript `Date`, abstracted to its UTC calendar day plus the
time within the day.  `toISOString().split('T')[0]` of two dates agree
exactly when their `day` components agree. -/
structure JsDate where
  day : Nat
  msOfDay : Nat
deriving DecidableEq, Repr

/-- A row of the `attendance` table as stored by the in-memory storage
(pg-core schema: with an optional comment and a `Date`-valued date). -/
structure Attendance where
  id : Nat
  studentId : Nat
  classId : Nat
  date : JsDate
  status : String
  comment : Option String
deriving DecidableEq, Repr

/-- A row of the sqlite `attendance` table (no comment column; the date
is an opaque timestamp that none of the verified queries inspect). -/
structure AttRow where
  id : Nat
  studentId : Nat
  classId : Nat
  status : String
  date : Nat
deriving DecidableEq, Repr

/-- A row of the `assessments` table. -/
structure Assessment where
  id : Nat
  classId : Nat
  name : String
  createdAt : Nat
deriving DecidableEq, Repr

/-- A row of the `grades` table. -/
structure Grade where
  id : Nat
  studentId : Nat
  assessmentId : Nat
  score : Int
  comment : Option String
  updatedAt : Nat
deriving DecidableEq, Repr

/-! ## JavaScript numeric helpers -/

/-- JavaScript `Math.round x`: the integer nearest to `x`, halves
rounding up, computed as the floor of `x + 1/2`. -/
def jsRound (q : ℚ) : ℤ := ⌊q + 1 / 2⌋

/-- Evaluation rule for `jsRound` at concrete rationals. -/
theorem jsRound_eq (q : ℚ) (z : ℤ) (h1 : (z : ℚ) ≤ q + 1 / 2) (h2 : q + 1 / 2 < z + 1) :
    jsRound q = z :=
  Int.floor_eq_iff.mpr ⟨h1, h2⟩

/-- The value denoted by JavaScript `x.toFixed(1)`: the number of
tenths in the printed one-decimal string, i.e. `x` rounded to the
nearest tenth (halves away from zero for the nonnegative scores that
occur here). -/
def jsToFixed1 (q : ℚ) : ℤ := jsRound (10 * q)

/-- The value of the `grade` / `current` field of a grade summary:
either the string `"N/A"` or a one-decimal average, represented by its
number of tenths (`tenths 837` stands for the string `"83.7"`). -/
inductive GradeDisplay where
  | na : GradeDisplay
  | tenths : ℤ → GradeDisplay
deriving DecidableEq, Repr

/-! ## The relational store (server/storage.ts, sqlite variant) -/

/-- The whole relational state of the sqlite-backed storage: one list
of rows per table. -/
structure Store where
  users : List User
  classes : List Class
  enrollments : List Enrollment
  attendance : List AttRow
  assessments : List Assessment
  grades : List Grade
deriving DecidableEq, Repr

namespace Store

/-- `Storage.getAttendanceByStudent(studentId, classId)`: all attendance
rows of the student in the class. -/
def getAttendanceByStudent (st : Store) (studentId classId : Nat) : List AttRow :=
  st.attendance.filter fun r => r.studentId == studentId && r.classId == classId

/-- `Storage.getAssessmentsByClass(classId)`. -/
def getAssessmentsByClass (st : Store) (classId : Nat) : List Assessment :=
  st.assessments.filter fun a => a.classId == classId

/-- `Storage.getGradesByStudent(studentId, classId)`: grades of the
student whose assessment belongs to the class (with the early return on
a class without assessments). -/
def getGradesByStudent (st : Store) (studentId classId : Nat) : List Grade :=
  let assessmentIds := (st.getAssessmentsByClass classId).map (fun a => a.id)
  if assessmentIds.length == 0 then []
  else st.grades.filter fun g =>
    g.studentId == studentId && assessmentIds.contains g.assessmentId

/-- `Storage.getUserByUsername(username)`: first user with the given
username. -/
def getUserByUsername (st : Store) (username : String) : Option User :=
  st.users.find? fun u => u.username == username

end Store

/-! ## Route: GET /api/students/:id/attendance/:classId -/

/-- The summary object computed by the per-student attendance endpoint. -/
structure AttendanceSummary where
  present : Nat
  absent : Nat
  late : Nat
  excused : Nat
  rate : ℤ
deriving DecidableEq, Repr

/-- The per-student attendance detail endpoint: counts the student's
records in the class by status and computes
`Math.round((present / totalRecords) * 100)`, or `0` when there are no
records. -/
def studentAttendanceSummary (st : Store) (studentId classId : Nat) : AttendanceSummary :=
  let records := st.getAttendanceByStudent studentId classId
  let present := (records.filter fun r => r.status == "present").length
  let absent := (records.filter fun r => r.status == "absent").length
  let late := (records.filter fun r => r.status == "late").length
  let excused := (records.filter fun r => r.status == "excused").length
  let totalRecords := records.length
  let attendanceRate : ℤ :=
    if totalRecords > 0 then jsRound (((present : ℚ) / (totalRecords : ℚ)) * 100) else 0
  ⟨present, absent, late, excused, attendanceRate⟩

/-! ## Route: GET /api/students/:id/grades/:classId -/

/-- The per-student grade detail endpoint's `current` field: the mean
of the student's scores in the class to one decimal place, or `"N/A"`
when the student has no grades there. -/
def studentCurrentGrade (st : Store) (studentId classId : Nat) : GradeDisplay :=
  let grades := st.getGradesByStudent studentId classId
  let totalScore : ℤ := (grades.map fun g => g.score).sum
  if grades.length > 0 then
    .tenths (jsToFixed1 ((totalScore : ℚ) / (grades.length : ℚ)))
  else .na

/-! ## Claim C2 -/

/-- The student's attendance rows in a class carrying a given status,
straight from the claim's wording. -/
def attRecordsWithStatus (st : Store) (studentId classId : Nat) (status : String) : List AttRow :=
  st.attendance.filter fun r =>
    r.studentId == studentId && r.classId == classId && r.status == status

/-- C2: the attendance-detail summary counts each status exactly, and
its rate is `round(100 * present / total)` for a positive number of
records and `0` when the student has no records in the class. -/
theorem studentAttendanceSummary_correct (st : Store) (studentId classId : Nat) :
    (studentAttendanceSummary st studentId classId).present =
      (attRecordsWithStatus st studentId classId "present").length ∧
    (studentAttendanceSummary st studentId classId).absent =
      (attRecordsWithStatus st studentId classId "absent").length ∧
    (studentAttendanceSummary st studentId classId).late =
      (attRecordsWithStatus st studentId classId "late").length ∧
    (studentAttendanceSummary st studentId classId).excused =
      (attRecordsWithStatus st studentId classId "excused").length ∧
    (0 < (st.getAttendanceByStudent studentId classId).length →
      (studentAttendanceSummary st studentId classId).rate =
        jsRound ((100 * ((studentAttendanceSummary st studentId classId).present : ℚ)) /
          ((st.getAttendanceByStudent studentId classId).length : ℚ))) ∧
    ((st.getAttendanceByStudent studentId classId).length = 0 →
      (studentAttendanceSummary st studentId classId).rate = 0) := by
  have hfilter : ∀ status : String,
      (attRecordsWithStatus st studentId classId status) =
        (st.getAttendanceByStudent studentId classId).filter
          (fun r => r.status == status) := by
    intro status
    simp only [attRecordsWithStatus, Store.getAttendanceByStudent, List.filter_filter]
    exact List.filter_congr fun r _ => by
      cases h1 : (r.studentId == studentId) <;>
        cases h2 : (r.classId == classId) <;>
          cases h3 : (r.status == status) <;> simp [h1, h2, h3]
  refine ⟨by simp [studentAttendanceSummary, hfilter],
    by simp [studentAttendanceSummary, hfilter],
    by simp [studentAttendanceSummary, hfilter],
    by simp [studentAttendanceSummary, hfilter], ?_, ?_⟩
  · intro htotal
    simp only [studentAttendanceSummary]
    rw [if_pos htotal]
    congr 1
    ring
  · intro htotal
    simp only [studentAttendanceSummary]
    rw [if_neg (by omega)]

/-- Concrete check of C2 at the specification's worked example: records
`[present, present, absent, late]` give counts `2/1/1/0` and rate
`round(100 * 2 / 4) = 50`. -/
def exampleStoreC2 : Store :=
  { users := [], classes := [], enrollments := [],
    attendance :=
      [ ⟨1, 7, 3, "present", 0⟩, ⟨2, 7, 3, "present", 1⟩,
        ⟨3, 7, 3, "absent", 2⟩, ⟨4, 7, 3, "late", 3⟩ ],
    assessments := [], grades := [] }

/-- Witness for C2: the theorem applied at the example store. -/
theorem studentAttendanceSummary_correct_witness :
    0 < (exampleStoreC2.getAttendanceByStudent 7 3).length ∧
    (studentAttendanceSummary exampleStoreC2 7 3).present =
        (attRecordsWithStatus exampleStoreC2 7 3 "present").length ∧
    (studentAttendanceSummary exampleStoreC2 7 3).rate = 50 := by
  have h := studentAttendanceSummary_correct exampleStoreC2 7 3
  refine ⟨by decide, h.1, ?_⟩
  have hrate := h.2.2.2.2.1 (by decide)
  have hp : (studentAttendanceSummary exampleStoreC2 7 3).present = 2 := by decide
  have hl : (exampleStoreC2.getAttendanceByStudent 7 3).length = 4 := by decide
  rw [hrate, hp, hl]
  apply jsRound_eq <;> norm_num

/-! ## Claim C3 -/

/-- The student's grade scores across a class's assessments, straight
from the claim's wording. -/
def studentScoresInClass (st : Store) (studentId classId : Nat) : List Int :=
  (st.grades.filter fun g =>
    g.studentId == studentId &&
      ((st.assessments.filter fun a => a.classId == classId).map (fun a => a.id)).contains
        g.assessmentId).map fun g => g.score

/-- C3: the grade-detail endpoint's `current` value is the arithmetic
mean of the student's scores over the class's assessments to one
decimal place when a grade exists, and `"N/A"` when none does. -/
theorem studentCurrentGrade_correct (st : Store) (studentId classId : Nat) :
    (studentScoresInClass st studentId classId ≠ [] →
      studentCurrentGrade st studentId classId =
        .tenths (jsToFixed1 (((studentScoresInClass st studentId classId).sum : ℚ) /
          ((studentScoresInClass st studentId classId).length : ℚ)))) ∧
    (studentScoresInClass st studentId classId = [] →
      studentCurrentGrade st studentId classId = .na) := by
  have hsc : studentScoresInClass st studentId classId =
      (Store.getGradesByStudent st studentId classId).map (fun g => g.score) := by
    simp only [studentScoresInClass, Store.getGradesByStudent, Store.getAssessmentsByClass]
    cases hids : (st.assessments.filter fun a => a.classId == classId).map (fun a => a.id) with
    | nil =>
        simp only [hids, List.length_nil]
        have : ∀ g : Grade,
            (g.studentId == studentId && ([] : List Nat).contains g.assessmentId) = false := by
          intro g
          simp [List.contains]
        simp [List.filter_congr fun g _ => this g]
    | cons a l => simp [hids]
  constructor
  · intro hne
    have hlen : 0 < (Store.getGradesByStudent st studentId classId).length := by
      rw [hsc] at hne
      cases hg : Store.getGradesByStudent st studentId classId with
      | nil => rw [hg] at hne; simp at hne
      | cons a l => simp [hg]
    simp only [studentCurrentGrade, if_pos hlen, hsc, List.length_map]
  · intro hempty
    rw [hsc] at hempty
    simp only [List.map_eq_nil_iff] at hempty
    simp [studentCurrentGrade, hempty]

/-- Store for the C3 worked example: three assessments in class 3 with
scores 85, 88, 78 for student 7. -/
def exampleStoreC3 : Store :=
  { users := [], classes := [], enrollments := [], attendance := [],
    assessments := [ ⟨1, 3, "Quiz 1", 0⟩, ⟨2, 3, "Midterm", 0⟩, ⟨3, 3, "Final", 0⟩ ],
    grades :=
      [ ⟨1, 7, 1, 85, none, 0⟩, ⟨2, 7, 2, 88, none, 0⟩, ⟨3, 7, 3, 78, none, 0⟩ ] }

/-- Witness for C3: scores `[85, 88, 78]` produce the one-decimal
average `83.7`. -/
theorem studentCurrentGrade_correct_witness :
    studentScoresInClass exampleStoreC3 7 3 ≠ [] ∧
    studentCurrentGrade exampleStoreC3 7 3 = .tenths 837 := by
  have h := (studentCurrentGrade_correct exampleStoreC3 7 3).1 (by decide)
  refine ⟨by decide, ?_⟩
  rw [h]
  have hs : (studentScoresInClass exampleStoreC3 7 3).sum = 251 := by decide
  have hl : (studentScoresInClass exampleStoreC3 7 3).length = 3 := by decide
  rw [hs, hl]
  have : jsToFixed1 (((251 : ℤ) : ℚ) / ((3 : ℕ) : ℚ)) = 837 := by
    unfold jsToFixed1
    apply jsRound_eq <;> norm_num
  rw [this]

/-! ## Claim C9: POST /api/classes class-code generation

JavaScript strings are embedded as lists of characters;
`s.substring(b, e)` keeps the characters with indices in `[b, e)`,
clamping at the ends, and `toUpperCase` maps `Char.toUpper` over the
string. -/

/-- JavaScript `s.substring(b, e)` for `b ≤ e`. -/
def jsSubstring (s : List Char) (b e : Nat) : List Char :=
  (s.drop b).take (e - b)

/-- JavaScript `s.toUpperCase()` on the ASCII strings used here. -/
def jsUpper (s : List Char) : List Char :=
  s.map Char.toUpper

/-- The class-code generator of `POST /api/classes`:
`subject.substring(0, 4).toUpperCase()` + `"-"` +
`Math.random().toString(36).substring(2, 8).toUpperCase()`, taking the
base-36 rendering of the random number as an explicit argument. -/
def makeClassCode (subject randomStr : List Char) : List Char :=
  let pfx := jsUpper (jsSubstring subject 0 4)
  let suffix := jsUpper (jsSubstring randomStr 2 8)
  pfx ++ '-' :: suffix

/-- The base-36 digits, the only characters occurring after the
`"0."` in `Math.random().toString(36)`. -/
def isBase36Digit (c : Char) : Bool :=
  "0123456789abcdefghijklmnopqrstuvwxyz".data.contains c

/-- C9 counterexample: when `Math.random()` returns `0.5`, its base-36
rendering is the three-character string `"0.i"`, and the generated
suffix is the single character `"I"`, not 6 characters: the code is
`"SCIE-I"`. -/
theorem makeClassCode_six_char_counterexample :
    makeClassCode "science".data "0.i".data = "SCIE-I".data ∧
    (jsUpper (jsSubstring "0.i".data 2 8)).length = 1 := by
  decide

/-- Uppercasing any base-36 digit yields an ASCII uppercase letter or a
decimal digit (checked over all 36 digits). -/
theorem base36_toUpper_upperAlnum :
    ∀ c ∈ "0123456789abcdefghijklmnopqrstuvwxyz".data,
      (c.toUpper.isUpper || c.toUpper.isDigit) = true := by
  decide

/-- C9 (amended): the generated code is
`{subject truncated to 4 characters, uppercased}-{suffix}` where the
suffix is the uppercased characters 2 to 8 of the random base-36
string: at most 6 alphanumeric uppercase characters, and exactly 6
whenever that string has at least 8 characters. -/
theorem makeClassCode_spec (subject randomStr : List Char)
    (hc : ∀ c ∈ randomStr.drop 2, isBase36Digit c = true) :
    makeClassCode subject randomStr =
      jsUpper (subject.take 4) ++ '-' :: jsUpper (jsSubstring randomStr 2 8) ∧
    (jsUpper (jsSubstring randomStr 2 8)).length ≤ 6 ∧
    (8 ≤ randomStr.length → (jsUpper (jsSubstring randomStr 2 8)).length = 6) ∧
    (∀ c ∈ jsUpper (jsSubstring randomStr 2 8), (c.isUpper || c.isDigit) = true) := by
  refine ⟨?_, ?_, ?_, ?_⟩
  · simp [makeClassCode, jsSubstring]
  · simp only [jsUpper, jsSubstring, List.length_map, List.length_take]
    omega
  · intro hlen
    simp only [jsUpper, jsSubstring, List.length_map, List.length_take, List.length_drop]
    omega
  · intro c hcmem
    simp only [jsUpper, List.mem_map] at hcmem
    obtain ⟨c0, hc0, rfl⟩ := hcmem
    have hc0' : c0 ∈ randomStr.drop 2 := List.take_subset _ _ (by
      simpa [jsSubstring] using hc0)
    have hb := hc c0 hc0'
    rw [isBase36Digit, List.contains_eq_any_beq] at hb
    simp only [List.any_eq_true, beq_iff_eq] at hb
    obtain ⟨d, hd, hde⟩ := hb
    rw [hde]
    exact base36_toUpper_upperAlnum d hd

/-- Witness for C9 at a full-length random string
(`Math.random() = 0.123456789` gives `"0.4fp4sjbdkbn"`). -/
theorem makeClassCode_spec_witness :
    (∀ c ∈ "0.4fp4sjbdkbn".data.drop 2, isBase36Digit c = true) ∧
    makeClassCode "science".data "0.4fp4sjbdkbn".data =
      jsUpper ("science".data.take 4) ++ '-' :: jsUpper (jsSubstring "0.4fp4sjbdkbn".data 2 8) ∧
    (jsUpper (jsSubstring "0.4fp4sjbdkbn".data 2 8)).length = 6 :=
  ⟨by decide,
   (makeClassCode_spec "science".data "0.4fp4sjbdkbn".data (by decide)).1,
   (makeClassCode_spec "science".data "0.4fp4sjbdkbn".data (by decide)).2.2.1 (by decide)⟩

/-! ## Claim C8: POST /api/auth/login -/

/-- The parsed body of a login request. -/
structure LoginRequest where
  username : String
  password : String
  role : String
deriving DecidableEq, Repr

/-- A user object with the password field removed. -/
structure PublicUser where
  id : Nat
  username : String
  role : String
  name : String
deriving DecidableEq, Repr

/-- The three possible outcomes of the login endpoint: a Zod schema
failure (400), the single undifferentiated `'Invalid credentials'`
rejection (401), or success with the password-stripped user (200). -/
inductive LoginResponse where
  | badRequest : LoginResponse
  | invalidCredentials : LoginResponse
  | ok : PublicUser → LoginResponse
deriving DecidableEq, Repr

/-- HTTP status of each login outcome. -/
def loginStatus : LoginResponse → Nat
  | .badRequest => 400
  | .invalidCredentials => 401
  | .ok _ => 200

/-- The `loginSchema` Zod validation: username at least 3 characters,
password at least 6, role one of `teacher` / `student`. -/
def validLoginShape (r : LoginRequest) : Bool :=
  (3 ≤ r.username.length) && (6 ≤ r.password.length) &&
    (r.role == "teacher" || r.role == "student")

/-- `POST /api/auth/login`: parse the body, look the user up by
username, and reject with the single 401 message unless the user exists
and both the password and the role match. -/
def loginHandler (st : Store) (r : LoginRequest) : LoginResponse :=
  if validLoginShape r = false then .badRequest
  else
    match st.getUserByUsername r.username with
    | none => .invalidCredentials
    | some u =>
      if u.password != r.password || u.role != r.role then .invalidCredentials
      else .ok ⟨u.id, u.username, u.role, u.name⟩

/-- The claim's rejection condition: no user with the given username,
or a password mismatch, or a role mismatch. -/
def credentialsRejected (st : Store) (r : LoginRequest) : Bool :=
  match st.getUserByUsername r.username with
  | none => true
  | some u => u.password != r.password || u.role != r.role

/-- Store for the C8 scenarios: a single teacher account. -/
def loginStore : Store :=
  { users := [⟨1, "alice", "secret123", "teacher", "Alice"⟩],
    classes := [], enrollments := [], attendance := [], assessments := [], grades := [] }

/-- C8 counterexample: the request `{alice, abc, teacher}` has a wrong
password, so the claim as stated demands a 401, but the endpoint
answers 400 because the Zod schema (password shorter than 6
characters) rejects the body before the credential check runs. -/
theorem login_401_iff_counterexample :
    credentialsRejected loginStore ⟨"alice", "abc", "teacher"⟩ = true ∧
    loginStatus (loginHandler loginStore ⟨"alice", "abc", "teacher"⟩) = 400 := by
  decide

/-- C8 (amended): for every login request that passes the login-schema
validation, the endpoint answers 401 (the single undifferentiated
`'Invalid credentials'` response) exactly when no user with the given
username exists or the stored password or role differs, and otherwise
answers 200 with the user object minus the password field. -/
theorem loginHandler_spec (st : Store) (r : LoginRequest)
    (h : validLoginShape r = true) :
    (loginStatus (loginHandler st r) = 401 ↔ credentialsRejected st r = true) ∧
    (loginStatus (loginHandler st r) = 401 → loginHandler st r = .invalidCredentials) ∧
    (credentialsRejected st r = false →
      ∃ u, st.getUserByUsername r.username = some u ∧
        u.password = r.password ∧ u.role = r.role ∧
        loginHandler st r = .ok ⟨u.id, u.username, u.role, u.name⟩) := by
  simp only [loginHandler, h]
  cases hu : st.getUserByUsername r.username with
  | none => simp [loginStatus, credentialsRejected, hu]
  | some u =>
    cases hcheck : (u.password != r.password || u.role != r.role) with
    | true => simp [loginStatus, credentialsRejected, hu, hcheck]
    | false =>
      simp only [credentialsRejected, hu, hcheck, Bool.false_eq_true, if_false, if_true]
      simp only [Bool.or_eq_false_iff, bne_eq_false_iff_eq] at hcheck
      simp [loginStatus, hcheck.1, hcheck.2]

/-- Witness for C8 at a well-formed request with correct credentials. -/
theorem loginHandler_spec_witness :
    validLoginShape ⟨"alice", "secret123", "teacher"⟩ = true ∧
    (loginStatus (loginHandler loginStore ⟨"alice", "secret123", "teacher"⟩) = 401 ↔
      credentialsRejected loginStore ⟨"alice", "secret123", "teacher"⟩ = true) :=
  ⟨by decide, (loginHandler_spec loginStore ⟨"alice", "secret123", "teacher"⟩ (by decide)).1⟩

/-! ## The in-memory storage (server/storage.ts, MemStorage variant)

The `Map<number, row>` collections are embedded as lists of rows in
insertion order: `Map.set` on a fresh key appends, `Map.set` on an
existing key replaces the entry with that key, and `Map.delete`
removes it.  Each `new Date()` taken by an operation is passed in as an
explicit `now` argument. -/

/-- `InsertUser`. -/
structure InsertUser where
  username : String
  password : String
  role : String
  name : String
deriving DecidableEq, Repr

/-- `InsertClass` (no id, no createdAt). -/
structure InsertClass where
  name : String
  subject : String
  description : Option String
  gradeLevel : String
  classCode : String
  teacherId : Nat
deriving DecidableEq, Repr

/-- `InsertEnrollment`. -/
structure InsertEnrollment where
  studentId : Nat
  classId : Nat
deriving DecidableEq, Repr

/-- `InsertAttendance`. -/
structure InsertAttendance where
  studentId : Nat
  classId : Nat
  date : JsDate
  status : String
  comment : Option String
deriving DecidableEq, Repr

/-- `InsertAssessment`. -/
structure InsertAssessment where
  classId : Nat
  name : String
deriving DecidableEq, Repr

/-- `InsertGrade`. -/
structure InsertGrade where
  studentId : Nat
  assessmentId : Nat
  score : Int
  comment : Option String
deriving DecidableEq, Repr

/-- A `Partial<InsertClass>` object as it can arrive at runtime: every
field optional, including stray `id` and `createdAt` properties that a
raw JavaScript object may carry (the implementation explicitly restores
the original `id` and `createdAt` after spreading it). -/
structure PartialClass where
  id : Option Nat := none
  name : Option String := none
  subject : Option String := none
  description : Option (Option String) := none
  gradeLevel : Option String := none
  classCode : Option String := none
  teacherId : Option Nat := none
  createdAt : Option Nat := none
deriving DecidableEq, Repr

/-- A `Partial<InsertAttendance>` object. -/
structure PartialAttendance where
  studentId : Option Nat := none
  classId : Option Nat := none
  date : Option JsDate := none
  status : Option String := none
  comment : Option (Option String) := none
deriving DecidableEq, Repr

/-- A `Partial<InsertGrade>` object. -/
structure PartialGrade where
  studentId : Option Nat := none
  assessmentId : Option Nat := none
  score : Option Int := none
  comment : Option (Option String) := none
deriving DecidableEq, Repr

/-- The JavaScript spread `{ ...existingClass, ...classData, id:
existingClass.id, createdAt: existingClass.createdAt }`. -/
def applyPartialClass (d : PartialClass) (c : Class) : Class :=
  { id := c.id
    name := d.name.getD c.name
    subject := d.subject.getD c.subject
    description := d.description.getD c.description
    gradeLevel := d.gradeLevel.getD c.gradeLevel
    classCode := d.classCode.getD c.classCode
    teacherId := d.teacherId.getD c.teacherId
    createdAt := c.createdAt }

/-- The JavaScript spread `{ ...attendance, ...attendanceData }`. -/
def applyPartialAttendance (d : PartialAttendance) (r : Attendance) : Attendance :=
  { id := r.id
    studentId := d.studentId.getD r.studentId
    classId := d.classId.getD r.classId
    date := d.date.getD r.date
    status := d.status.getD r.status
    comment := d.comment.getD r.comment }

/-- The JavaScript spread `{ ...grade, ...gradeData }` (before the
`updatedAt` refresh). -/
def applyPartialGrade (d : PartialGrade) (g : Grade) : Grade :=
  { id := g.id
    studentId := d.studentId.getD g.studentId
    assessmentId := d.assessmentId.getD g.assessmentId
    score := d.score.getD g.score
    comment := d.comment.getD g.comment
    updatedAt := g.updatedAt }

/-- The full state of a `MemStorage` instance: the six row maps in
insertion order and the six id counters. -/
structure MemState where
  users : List User
  classes : List Class
  enrollments : List Enrollment
  attendanceRecords : List Attendance
  assessments : List Assessment
  grades : List Grade
  userId : Nat
  classId : Nat
  enrollmentId : Nat
  attendanceId : Nat
  assessmentId : Nat
  gradeId : Nat
deriving DecidableEq, Repr

/-- The state of a freshly constructed `MemStorage` before any
operation runs (the seed data is installed through the same public
operations). -/
def emptyMem : MemState := ⟨[], [], [], [], [], [], 1, 1, 1, 1, 1, 1⟩

namespace MemState

/-- `MemStorage.createUser`. -/
def createUser (st : MemState) (d : InsertUser) : User × MemState :=
  let user : User := ⟨st.userId, d.username, d.password, d.role, d.name⟩
  (user, { st with users := st.users ++ [user], userId := st.userId + 1 })

/-- `MemStorage.createClass`. -/
def createClass (st : MemState) (now : Nat) (d : InsertClass) : Class × MemState :=
  let c : Class := ⟨st.classId, d.name, d.subject, d.description, d.gradeLevel,
    d.classCode, d.teacherId, now⟩
  (c, { st with classes := st.classes ++ [c], classId := st.classId + 1 })

/-- `MemStorage.updateClass`: `none` models the thrown `not found`
error. -/
def updateClass (st : MemState) (id : Nat) (d : PartialClass) : Option (Class × MemState) :=
  match st.classes.find? (fun c => c.id == id) with
  | none => none
  | some c =>
    let c' := applyPartialClass d c
    some (c', { st with classes := st.classes.map fun x => if x.id == id then c' else x })

/-- `MemStorage.deleteClass`: removes the class, then its enrollments,
its attendance records, and its assessments together with the grades of
each such assessment, each by the id of the row being deleted. -/
def deleteClass (st : MemState) (id : Nat) : Option MemState :=
  match st.classes.find? (fun c => c.id == id) with
  | none => none
  | some _ =>
    let classes' := st.classes.filter fun c => !(c.id == id)
    let enrollmentsToDelete := st.enrollments.filter fun e => e.classId == id
    let enrollments' := enrollmentsToDelete.foldl
      (fun acc e => acc.filter fun x => !(x.id == e.id)) st.enrollments
    let attendanceToDelete := st.attendanceRecords.filter fun r => r.classId == id
    let attendance' := attendanceToDelete.foldl
      (fun acc r => acc.filter fun x => !(x.id == r.id)) st.attendanceRecords
    let assessmentsToDelete := st.assessments.filter fun a => a.classId == id
    let final := assessmentsToDelete.foldl
      (fun (acc : List Grade × List Assessment) a =>
        let gradesToDelete := acc.1.filter fun g => g.assessmentId == a.id
        (gradesToDelete.foldl (fun gacc g => gacc.filter fun x => !(x.id == g.id)) acc.1,
         acc.2.filter fun x => !(x.id == a.id)))
      (st.grades, st.assessments)
    some { st with
           classes := classes', enrollments := enrollments',
           attendanceRecords := attendance', assessments := final.2, grades := final.1 }

/-- `MemStorage.enrollStudent`: returns the existing enrollment of the
(student, class) pair when there is one, otherwise inserts a fresh
row. -/
def enrollStudent (st : MemState) (now : Nat) (d : InsertEnrollment) : Enrollment × MemState :=
  match st.enrollments.find? (fun e => e.studentId == d.studentId && e.classId == d.classId) with
  | some e => (e, st)
  | none =>
    let e : Enrollment := ⟨st.enrollmentId, d.studentId, d.classId, now⟩
    (e, { st with enrollments := st.enrollments ++ [e], enrollmentId := st.enrollmentId + 1 })

/-- `MemStorage.createAttendance`: when a record for the same student,
class and calendar day exists, overwrite its status and comment in
place; otherwise insert a fresh row. -/
def createAttendance (st : MemState) (d : InsertAttendance) : Attendance × MemState :=
  match st.attendanceRecords.find? (fun r =>
      r.studentId == d.studentId && r.classId == d.classId && r.date.day == d.date.day) with
  | some r =>
    let r' : Attendance := { r with status := d.status, comment := d.comment }
    (r', { st with attendanceRecords :=
      st.attendanceRecords.map fun x => if x.id == r.id then r' else x })
  | none =>
    let r : Attendance := ⟨st.attendanceId, d.studentId, d.classId, d.date, d.status, d.comment⟩
    (r, { st with
          attendanceRecords := st.attendanceRecords ++ [r],
          attendanceId := st.attendanceId + 1 })

/-- `MemStorage.updateAttendance`. -/
def updateAttendance (st : MemState) (aid : Nat) (d : PartialAttendance) :
    Option (Attendance × MemState) :=
  match st.attendanceRecords.find? (fun r => r.id == aid) with
  | none => none
  | some r =>
    let r' := applyPartialAttendance d r
    some (r', { st with attendanceRecords :=
      st.attendanceRecords.map fun x => if x.id == aid then r' else x })

/-- `MemStorage.createAssessment`. -/
def createAssessment (st : MemState) (now : Nat) (d : InsertAssessment) :
    Assessment × MemState :=
  let a : Assessment := ⟨st.assessmentId, d.classId, d.name, now⟩
  (a, { st with assessments := st.assessments ++ [a], assessmentId := st.assessmentId + 1 })

/-- `MemStorage.createGrade`: when the (student, assessment) pair
already has a grade, overwrite its score and comment and refresh
`updatedAt`; otherwise insert a fresh row. -/
def createGrade (st : MemState) (now : Nat) (d : InsertGrade) : Grade × MemState :=
  match st.grades.find? (fun g =>
      g.studentId == d.studentId && g.assessmentId == d.assessmentId) with
  | some g =>
    let g' : Grade := { g with score := d.score, comment := d.comment, updatedAt := now }
    (g', { st with grades := st.grades.map fun x => if x.id == g.id then g' else x })
  | none =>
    let g : Grade := ⟨st.gradeId, d.studentId, d.assessmentId, d.score, d.comment, now⟩
    (g, { st with grades := st.grades ++ [g], gradeId := st.gradeId + 1 })

/-- `MemStorage.updateGrade` (always refreshes `updatedAt`). -/
def updateGrade (st : MemState) (now : Nat) (gid : Nat) (d : PartialGrade) :
    Option (Grade × MemState) :=
  match st.grades.find? (fun g => g.id == gid) with
  | none => none
  | some g =>
    let g' : Grade := { applyPartialGrade d g with updatedAt := now }
    some (g', { st with grades := st.grades.map fun x => if x.id == gid then g' else x })

end MemState

/-! ## Claim C4: idempotent enrollment -/

/-- If a list filters down to exactly one element, `find?` with the
same predicate returns it. -/
theorem find?_of_filter_singleton {α : Type} (p : α → Bool) (l : List α) (e : α)
    (h : l.filter p = [e]) : l.find? p = some e := by
  induction l with
  | nil => simp at h
  | cons a l ih =>
    cases hp : p a with
    | true =>
      rw [List.filter_cons_of_pos hp] at h
      obtain ⟨rfl, -⟩ := List.cons.injEq .. ▸ h
      · simp [List.find?, hp]
    | false =>
      rw [List.filter_cons_of_neg (by simp [hp])] at h
      simp [List.find?, hp, ih h]

/-- C4: when the store holds exactly one enrollment for the (student,
class) pair, `enrollStudent` returns that row, leaves the state
unchanged, and the store afterwards still holds exactly one enrollment
for the pair. -/
theorem enrollStudent_idempotent (st : MemState) (now : Nat) (d : InsertEnrollment)
    (e : Enrollment)
    (h : st.enrollments.filter
      (fun x => x.studentId == d.studentId && x.classId == d.classId) = [e]) :
    st.enrollStudent now d = (e, st) ∧
    ((st.enrollStudent now d).2.enrollments.filter
      (fun x => x.studentId == d.studentId && x.classId == d.classId)).length = 1 := by
  have hf := find?_of_filter_singleton _ _ _ h
  refine ⟨by simp [MemState.enrollStudent, hf], ?_⟩
  simp [MemState.enrollStudent, hf, h]

/-- A state already holding the enrollment (7, 3). -/
def enrolledState : MemState :=
  { emptyMem with enrollments := [⟨1, 7, 3, 0⟩], enrollmentId := 2 }

/-- Witness for C4: re-enrolling student 7 in class 3 returns the
existing row and changes nothing. -/
theorem enrollStudent_idempotent_witness :
    enrolledState.enrollments.filter
      (fun x => x.studentId == (7 : Nat) && x.classId == (3 : Nat)) = [⟨1, 7, 3, 0⟩] ∧
    enrolledState.enrollStudent 5 ⟨7, 3⟩ = (⟨1, 7, 3, 0⟩, enrolledState) :=
  ⟨by decide, (enrollStudent_idempotent enrolledState 5 ⟨7, 3⟩ ⟨1, 7, 3, 0⟩ (by decide)).1⟩

/-! ## Claim C10: updateClass frame conditions -/

/-- C10: `updateClass` keeps `id` and `createdAt` from the stored row
even when the update data supplies them, takes exactly the supplied
fields from the update data and the rest from the stored row, replaces
only the entry with the given id, and touches no other table. -/
theorem updateClass_frame (st : MemState) (id : Nat) (d : PartialClass) (c : Class)
    (h : st.classes.find? (fun x => x.id == id) = some c) :
    ∃ c' st', st.updateClass id d = some (c', st') ∧
      c'.id = c.id ∧ c'.createdAt = c.createdAt ∧
      c'.name = d.name.getD c.name ∧ c'.subject = d.subject.getD c.subject ∧
      c'.description = d.description.getD c.description ∧
      c'.gradeLevel = d.gradeLevel.getD c.gradeLevel ∧
      c'.classCode = d.classCode.getD c.classCode ∧
      c'.teacherId = d.teacherId.getD c.teacherId ∧
      st'.classes = st.classes.map (fun x => if x.id == id then c' else x) ∧
      (∀ x ∈ st.classes, x.id ≠ id → x ∈ st'.classes) ∧
      st'.users = st.users ∧ st'.enrollments = st.enrollments ∧
      st'.attendanceRecords = st.attendanceRecords ∧
      st'.assessments = st.assessments ∧ st'.grades = st.grades := by
  refine ⟨applyPartialClass d c,
    { st with classes := st.classes.map fun x => if x.id == id then applyPartialClass d c else x },
    by simp [MemState.updateClass, h], rfl, rfl, rfl, rfl, rfl, rfl, rfl, rfl, rfl, ?_,
    rfl, rfl, rfl, rfl, rfl⟩
  intro x hx hne
  have hb : (x.id == id) = false := by simp [hne]
  have := List.mem_map_of_mem (fun y => if y.id == id then applyPartialClass d c else y) hx
  simpa [hb] using this

/-- A one-class state for the C10 witness. -/
def oneClassState : MemState :=
  { emptyMem with
    classes := [⟨1, "Mathematics 101", "mathematics", some "intro", "10", "MATH-A1B2C3", 9, 17⟩],
    classId := 2 }

/-- Witness for C10: an update that supplies `id`, `createdAt` and a
new name changes the name but keeps id 1 and createdAt 17. -/
theorem updateClass_frame_witness :
    oneClassState.classes.find? (fun x => x.id == (1 : Nat)) =
      some ⟨1, "Mathematics 101", "mathematics", some "intro", "10", "MATH-A1B2C3", 9, 17⟩ ∧
    ∃ c' st', oneClassState.updateClass 1
        { id := some 999, createdAt := some 999, name := some "Algebra" } = some (c', st') ∧
      c'.id = 1 ∧ c'.createdAt = 17 ∧ c'.name = "Algebra" := by
  refine ⟨by decide, ?_⟩
  obtain ⟨c', st', heq, hid, hcr, hname, -⟩ :=
    updateClass_frame oneClassState 1
      { id := some 999, createdAt := some 999, name := some "Algebra" }
      ⟨1, "Mathematics 101", "mathematics", some "intro", "10", "MATH-A1B2C3", 9, 17⟩
      (by decide)
  exact ⟨c', st', heq, hid, hcr, hname⟩

/-! ## Claim C7: deleteClass cascades -/

/-- Folding a list of deletions by key over an accumulator removes
exactly the elements whose key matches one of the deleted rows. -/
theorem foldl_delete_chain {α γ : Type} (key : α → Nat) (dkey : γ → Nat)
    (D : List γ) (acc : List α) :
    D.foldl (fun acc e => acc.filter fun x => !(key x == dkey e)) acc
      = acc.filter fun x => !(D.any fun e => key x == dkey e) := by
  induction D generalizing acc with
  | nil => simp
  | cons e D ih =>
    rw [List.foldl_cons, ih, List.filter_filter]
    apply List.filter_congr
    intro x hx
    cases h1 : (key x == dkey e) <;> simp [h1]

/-- Searching a mapped list for a `==`-match is searching the original
list under the map. -/
theorem any_map_beq {α : Type} (l : List α) (f : α → Nat) (n : Nat) :
    ((l.map f).any fun x => n == x) = l.any fun a => n == f a := by
  induction l with
  | nil => rfl
  | cons a l ih => simp only [List.map_cons, List.any_cons, ih]

/-- In a list with pairwise-distinct keys, a key-match search inside a
filtered sublist succeeds for a member exactly when the member itself
satisfies the filter. -/
theorem any_filter_keymatch {α : Type} (key : α → Nat) (p : α → Bool) (l : List α)
    (hnd : l.Pairwise fun a b => key a ≠ key b) (x : α) (hx : x ∈ l) :
    ((l.filter p).any fun e => key x == key e) = p x := by
  cases hp : p x with
  | true =>
    apply List.any_eq_true.mpr
    exact ⟨x, List.mem_filter.mpr ⟨hx, hp⟩, by simp⟩
  | false =>
    by_contra hany
    rw [Bool.not_eq_false, List.any_eq_true] at hany
    obtain ⟨e, he, hkey⟩ := hany
    obtain ⟨hel, hpe⟩ := List.mem_filter.mp he
    have hsymm : Symmetric (fun a b : α => key a ≠ key b) := fun a b h hEq => h hEq.symm
    have hxe : x = e := by
      by_contra hne
      exact hnd.forall hsymm hx hel hne (by simpa using hkey)
    rw [hxe] at hp
    simp [hpe] at hp

/-- Deleting, one row id at a time, every row of a list that satisfies
a predicate leaves exactly the rows that do not satisfy it, provided
row ids are pairwise distinct. -/
theorem delete_matching_filter {α : Type} (key : α → Nat) (p : α → Bool) (l : List α)
    (hnd : l.Pairwise fun a b => key a ≠ key b) :
    ((l.filter p).foldl (fun acc e => acc.filter fun x => !(key x == key e)) l)
      = l.filter fun x => !(p x) := by
  rw [foldl_delete_chain]
  apply List.filter_congr
  intro x hx
  rw [any_filter_keymatch key p l hnd x hx]

/-- Characterization of the joint grades/assessments deletion loop of
`deleteClass`: after processing the assessment list `A`, the grades of
the processed assessments and the processed assessments themselves are
gone. -/
theorem deleteClass_grades_loop (A : List Assessment) (gr : List Grade)
    (as : List Assessment)
    (hg : gr.Pairwise fun a b => a.id ≠ b.id)
    (ha : as.Pairwise fun a b => a.id ≠ b.id) :
    (A.foldl (fun (acc : List Grade × List Assessment) a =>
        ((acc.1.filter fun g => g.assessmentId == a.id).foldl
            (fun gacc g => gacc.filter fun x => !(x.id == g.id)) acc.1,
         acc.2.filter fun x => !(x.id == a.id))) (gr, as))
      = (gr.filter fun g => !(A.any fun a => g.assessmentId == a.id),
         as.filter fun x => !(A.any fun a => x.id == a.id)) := by
  induction A generalizing gr as with
  | nil => simp
  | cons a A ih =>
    rw [List.foldl_cons]
    have hstep : ((gr.filter fun g => g.assessmentId == a.id).foldl
        (fun gacc g => gacc.filter fun x => !(x.id == g.id)) gr)
        = gr.filter fun g => !(g.assessmentId == a.id) := by
      rw [foldl_delete_chain]
      apply List.filter_congr
      intro x hx
      rw [any_filter_keymatch (fun g => g.id) (fun g => g.assessmentId == a.id) gr hg x hx]
    simp only [hstep]
    rw [ih _ _ (hg.sublist (List.filter_sublist _)) (ha.sublist (List.filter_sublist _)),
      List.filter_filter, List.filter_filter]
    simp only [Prod.mk.injEq]
    refine ⟨List.filter_congr fun x _ => ?_, List.filter_congr fun x _ => ?_⟩
    · cases h1 : (x.assessmentId == a.id) <;>
        cases h2 : A.any (fun a => x.assessmentId == a.id) <;>
          simp [List.any_cons, h1, h2]
    · cases h1 : (x.id == a.id) <;>
        cases h2 : A.any (fun a => x.id == a.id) <;>
          simp [List.any_cons, h1, h2]

/-- C7: for a class id present in the store (with pairwise-distinct row
ids, as the id counters guarantee), `deleteClass` succeeds and removes
the class, all its enrollments, all its attendance records, all its
assessments and every grade of those assessments — so the corresponding
queries afterwards return the empty collection — while rows of other
classes and the remaining tables are untouched. -/
theorem deleteClass_cascade (st : MemState) (cid : Nat)
    (hc : ∃ c ∈ st.classes, c.id = cid)
    (hnE : st.enrollments.Pairwise fun a b => a.id ≠ b.id)
    (hnA : st.attendanceRecords.Pairwise fun a b => a.id ≠ b.id)
    (hnS : st.assessments.Pairwise fun a b => a.id ≠ b.id)
    (hnG : st.grades.Pairwise fun a b => a.id ≠ b.id) :
    ∃ st', st.deleteClass cid = some st' ∧
      st'.classes = st.classes.filter (fun c => !(c.id == cid)) ∧
      st'.enrollments = st.enrollments.filter (fun e => !(e.classId == cid)) ∧
      st'.attendanceRecords = st.attendanceRecords.filter (fun r => !(r.classId == cid)) ∧
      st'.assessments = st.assessments.filter (fun a => !(a.classId == cid)) ∧
      st'.grades = st.grades.filter (fun g =>
        !(((st.assessments.filter fun a => a.classId == cid).map fun a => a.id).contains
          g.assessmentId)) ∧
      st'.enrollments.filter (fun e => e.classId == cid) = [] ∧
      st'.attendanceRecords.filter (fun r => r.classId == cid) = [] ∧
      st'.assessments.filter (fun a => a.classId == cid) = [] ∧
      (∀ a ∈ st.assessments, a.classId = cid →
        st'.grades.filter (fun g => g.assessmentId == a.id) = []) ∧
      st'.users = st.users := by
  obtain ⟨c, hcmem, hcid⟩ := hc
  have hsat : (c.id == cid) = true := by simp [hcid]
  have hex : ∃ x ∈ st.classes, (fun cc : Class => cc.id == cid) x = true := ⟨c, hcmem, hsat⟩
  have hfindsome : ∃ c', st.classes.find? (fun c => c.id == cid) = some c' :=
    Option.isSome_iff_exists.mp (List.find?_isSome.mpr hex)
  obtain ⟨c', hfind⟩ := hfindsome
  have hE : (st.enrollments.filter fun e => e.classId == cid).foldl
      (fun acc e => acc.filter fun x => !(x.id == e.id)) st.enrollments
      = st.enrollments.filter fun e => !(e.classId == cid) := by
    simpa using delete_matching_filter (fun e : Enrollment => e.id)
      (fun e => e.classId == cid) st.enrollments hnE
  have hA : (st.attendanceRecords.filter fun r => r.classId == cid).foldl
      (fun acc r => acc.filter fun x => !(x.id == r.id)) st.attendanceRecords
      = st.attendanceRecords.filter fun r => !(r.classId == cid) := by
    simpa using delete_matching_filter (fun r : Attendance => r.id)
      (fun r => r.classId == cid) st.attendanceRecords hnA
  have hGA := deleteClass_grades_loop (st.assessments.filter fun a => a.classId == cid)
    st.grades st.assessments hnG hnS
  have hany : ∀ x : Assessment, x ∈ st.assessments →
      ((st.assessments.filter fun a => a.classId == cid).any fun a => x.id == a.id)
        = (x.classId == cid) := fun x hx =>
    any_filter_keymatch (fun a => a.id) (fun a => a.classId == cid) st.assessments hnS x hx
  have hSfix : (st.assessments.filter fun x =>
      !((st.assessments.filter fun a => a.classId == cid).any fun a => x.id == a.id))
      = st.assessments.filter fun a => !(a.classId == cid) :=
    List.filter_congr fun x hx => by rw [hany x hx]
  have hmain : st.deleteClass cid = some { st with
      classes := st.classes.filter fun c => !(c.id == cid),
      enrollments := st.enrollments.filter fun e => !(e.classId == cid),
      attendanceRecords := st.attendanceRecords.filter fun r => !(r.classId == cid),
      assessments := st.assessments.filter fun a => !(a.classId == cid),
      grades := st.grades.filter fun g =>
        !((st.assessments.filter fun a => a.classId == cid).any
          fun a => g.assessmentId == a.id) } := by
    rw [MemState.deleteClass, hfind]
    simp only [hE, hA, hGA, hSfix]
  refine ⟨_, hmain, rfl, rfl, rfl, rfl, ?_, ?_, ?_, ?_, ?_, rfl⟩
  · apply List.filter_congr
    intro g hg
    rw [List.contains_eq_any_beq, any_map_beq]
  · rw [List.filter_filter]
    apply List.filter_eq_nil_iff.mpr
    intro e he
    cases h1 : (e.classId == cid) <;> simp [h1]
  · rw [List.filter_filter]
    apply List.filter_eq_nil_iff.mpr
    intro r hr
    cases h1 : (r.classId == cid) <;> simp [h1]
  · rw [List.filter_filter]
    apply List.filter_eq_nil_iff.mpr
    intro a ha
    cases h1 : (a.classId == cid) <;> simp [h1]
  · intro a hamem hacid
    rw [List.filter_filter]
    apply List.filter_eq_nil_iff.mpr
    intro g hgmem
    cases h1 : (g.assessmentId == a.id)
    · simp [h1]
    · have hmem : a ∈ st.assessments.filter fun x => x.classId == cid :=
        List.mem_filter.mpr ⟨hamem, by simp [hacid]⟩
      have hanyg : ((st.assessments.filter fun x => x.classId == cid).any
          fun x => g.assessmentId == x.id) = true :=
        List.any_eq_true.mpr ⟨a, hmem, h1⟩
      simp [hanyg, h1]

/-- Two-class store for the C7 witness: class 1 and class 2 each own an
enrollment, an attendance record, an assessment and a grade. -/
def cascadeState : MemState :=
  { users := [⟨1, "t", "secret123", "teacher", "T"⟩],
    classes :=
      [ ⟨1, "Math", "mathematics", none, "10", "MATH-1", 1, 0⟩,
        ⟨2, "Phys", "science", none, "11", "SCIE-1", 1, 0⟩ ],
    enrollments := [⟨1, 7, 1, 0⟩, ⟨2, 7, 2, 0⟩],
    attendanceRecords :=
      [ ⟨1, 7, 1, ⟨0, 0⟩, "present", none⟩, ⟨2, 7, 2, ⟨0, 0⟩, "absent", none⟩ ],
    assessments := [⟨1, 1, "Quiz", 0⟩, ⟨2, 2, "Quiz", 0⟩],
    grades := [⟨1, 7, 1, 90, none, 0⟩, ⟨2, 7, 2, 80, none, 0⟩],
    userId := 2, classId := 3, enrollmentId := 3, attendanceId := 3,
    assessmentId := 3, gradeId := 3 }

/-- Witness for C7: deleting class 1 from the two-class store succeeds,
and afterwards class 1's enrollments are gone while class 2's rows
survive. -/
theorem deleteClass_cascade_witness :
    (∃ c ∈ cascadeState.classes, c.id = 1) ∧
    ∃ st', cascadeState.deleteClass 1 = some st' ∧
      st'.enrollments.filter (fun e => e.classId == 1) = [] ∧
      st'.enrollments = cascadeState.enrollments.filter (fun e => !(e.classId == 1)) := by
  refine ⟨⟨⟨1, "Math", "mathematics", none, "10", "MATH-1", 1, 0⟩, by decide, rfl⟩, ?_⟩
  obtain ⟨st', heq, -, henr, -, -, -, hempty, -⟩ :=
    deleteClass_cascade cascadeState 1
      ⟨⟨1, "Math", "mathematics", none, "10", "MATH-1", 1, 0⟩, by decide, rfl⟩
      (by decide) (by decide) (by decide) (by decide)
  exact ⟨st', heq, hempty, henr⟩

/-! ## Claims C5 and C6: upsert invariants of the in-memory storage

The two claims quantify over every state reachable by the storage
operations, so reachability is made explicit: `ReachMem` closes the
empty state under all mutating `MemStorage` operations (the
constructor's seed data is installed through these same operations).
The invariants are keyed on the upsert keys of `createAttendance` and
`createGrade`. -/

/-- The upsert key of an attendance record: class, student and the
calendar day of its date. -/
def attKey (r : Attendance) : Nat × Nat × Nat := (r.classId, r.studentId, r.date.day)

/-- At most one attendance record per (classId, studentId, day). -/
def attTripleUnique (l : List Attendance) : Prop :=
  l.Pairwise fun a b => attKey a ≠ attKey b

/-- The upsert key of a grade: assessment and student. -/
def gradeKey (g : Grade) : Nat × Nat := (g.assessmentId, g.studentId)

/-- At most one grade per (assessmentId, studentId). -/
def gradePairUnique (l : List Grade) : Prop :=
  l.Pairwise fun a b => gradeKey a ≠ gradeKey b

/-- All mutating operations of `MemStorage`, from the freshly
constructed (empty) store. -/
inductive ReachMem : MemState → Prop where
  | init : ReachMem emptyMem
  | createUser (st : MemState) (d : InsertUser) (h : ReachMem st) :
      ReachMem (st.createUser d).2
  | createClass (st : MemState) (now : Nat) (d : InsertClass) (h : ReachMem st) :
      ReachMem (st.createClass now d).2
  | updateClass (st : MemState) (id : Nat) (d : PartialClass) (p : Class × MemState)
      (h : ReachMem st) (hu : st.updateClass id d = some p) : ReachMem p.2
  | deleteClass (st : MemState) (id : Nat) (st' : MemState)
      (h : ReachMem st) (hd : st.deleteClass id = some st') : ReachMem st'
  | enrollStudent (st : MemState) (now : Nat) (d : InsertEnrollment) (h : ReachMem st) :
      ReachMem (st.enrollStudent now d).2
  | createAttendance (st : MemState) (d : InsertAttendance) (h : ReachMem st) :
      ReachMem (st.createAttendance d).2
  | updateAttendance (st : MemState) (aid : Nat) (d : PartialAttendance)
      (p : Attendance × MemState) (h : ReachMem st)
      (hu : st.updateAttendance aid d = some p) : ReachMem p.2
  | createAssessment (st : MemState) (now : Nat) (d : InsertAssessment) (h : ReachMem st) :
      ReachMem (st.createAssessment now d).2
  | createGrade (st : MemState) (now : Nat) (d : InsertGrade) (h : ReachMem st) :
      ReachMem (st.createGrade now d).2
  | updateGrade (st : MemState) (now : Nat) (gid : Nat) (d : PartialGrade)
      (p : Grade × MemState) (h : ReachMem st)
      (hu : st.updateGrade now gid d = some p) : ReachMem p.2

/-- The same operations, but `updateAttendance` is never handed data
that would change a record's student, class or date (the key fields of
the attendance upsert). -/
inductive ReachAttSafe : MemState → Prop where
  | init : ReachAttSafe emptyMem
  | createUser (st : MemState) (d : InsertUser) (h : ReachAttSafe st) :
      ReachAttSafe (st.createUser d).2
  | createClass (st : MemState) (now : Nat) (d : InsertClass) (h : ReachAttSafe st) :
      ReachAttSafe (st.createClass now d).2
  | updateClass (st : MemState) (id : Nat) (d : PartialClass) (p : Class × MemState)
      (h : ReachAttSafe st) (hu : st.updateClass id d = some p) : ReachAttSafe p.2
  | deleteClass (st : MemState) (id : Nat) (st' : MemState)
      (h : ReachAttSafe st) (hd : st.deleteClass id = some st') : ReachAttSafe st'
  | enrollStudent (st : MemState) (now : Nat) (d : InsertEnrollment) (h : ReachAttSafe st) :
      ReachAttSafe (st.enrollStudent now d).2
  | createAttendance (st : MemState) (d : InsertAttendance) (h : ReachAttSafe st) :
      ReachAttSafe (st.createAttendance d).2
  | updateAttendance (st : MemState) (aid : Nat) (d : PartialAttendance)
      (p : Attendance × MemState) (h : ReachAttSafe st)
      (hkey : d.studentId = none ∧ d.classId = none ∧ d.date = none)
      (hu : st.updateAttendance aid d = some p) : ReachAttSafe p.2
  | createAssessment (st : MemState) (now : Nat) (d : InsertAssessment) (h : ReachAttSafe st) :
      ReachAttSafe (st.createAssessment now d).2
  | createGrade (st : MemState) (now : Nat) (d : InsertGrade) (h : ReachAttSafe st) :
      ReachAttSafe (st.createGrade now d).2
  | updateGrade (st : MemState) (now : Nat) (gid : Nat) (d : PartialGrade)
      (p : Grade × MemState) (h : ReachAttSafe st)
      (hu : st.updateGrade now gid d = some p) : ReachAttSafe p.2

/-- The same operations, but `updateGrade` is never handed data that
would change a grade's student or assessment (the key fields of the
grade upsert). -/
inductive ReachGrSafe : MemState → Prop where
  | init : ReachGrSafe emptyMem
  | createUser (st : MemState) (d : InsertUser) (h : ReachGrSafe st) :
      ReachGrSafe (st.createUser d).2
  | createClass (st : MemState) (now : Nat) (d : InsertClass) (h : ReachGrSafe st) :
      ReachGrSafe (st.createClass now d).2
  | updateClass (st : MemState) (id : Nat) (d : PartialClass) (p : Class × MemState)
      (h : ReachGrSafe st) (hu : st.updateClass id d = some p) : ReachGrSafe p.2
  | deleteClass (st : MemState) (id : Nat) (st' : MemState)
      (h : ReachGrSafe st) (hd : st.deleteClass id = some st') : ReachGrSafe st'
  | enrollStudent (st : MemState) (now : Nat) (d : InsertEnrollment) (h : ReachGrSafe st) :
      ReachGrSafe (st.enrollStudent now d).2
  | createAttendance (st : MemState) (d : InsertAttendance) (h : ReachGrSafe st) :
      ReachGrSafe (st.createAttendance d).2
  | updateAttendance (st : MemState) (aid : Nat) (d : PartialAttendance)
      (p : Attendance × MemState) (h : ReachGrSafe st)
      (hu : st.updateAttendance aid d = some p) : ReachGrSafe p.2
  | createAssessment (st : MemState) (now : Nat) (d : InsertAssessment) (h : ReachGrSafe st) :
      ReachGrSafe (st.createAssessment now d).2
  | createGrade (st : MemState) (now : Nat) (d : InsertGrade) (h : ReachGrSafe st) :
      ReachGrSafe (st.createGrade now d).2
  | updateGrade (st : MemState) (now : Nat) (gid : Nat) (d : PartialGrade)
      (p : Grade × MemState) (h : ReachGrSafe st)
      (hkey : d.studentId = none ∧ d.assessmentId = none)
      (hu : st.updateGrade now gid d = some p) : ReachGrSafe p.2

/-! Helper lemmas about the list manipulations the operations use. -/

/-- Replacing the row with the id of `r` by a row with the same id and
key leaves ids and keys of all list members unchanged. -/
theorem overwrite_preserves {α β : Type} (idf : α → Nat) (keyf : α → β) (l : List α)
    (r r' : α) (hr : r ∈ l) (hnd : l.Pairwise fun a b => idf a ≠ idf b)
    (hid : idf r' = idf r) (hkey : keyf r' = keyf r) :
    ∀ x ∈ l, idf (if idf x == idf r then r' else x) = idf x ∧
      keyf (if idf x == idf r then r' else x) = keyf x := by
  intro x hx
  cases hb : (idf x == idf r)
  · simp [hb]
  · have hxe : idf x = idf r := by simpa using hb
    have hsymm : Symmetric (fun a b : α => idf a ≠ idf b) := fun a b h hEq => h hEq.symm
    have hxr : x = r := by
      by_contra hne
      exact hnd.forall hsymm hx hr hne hxe
    subst hxr
    simp [hb, hid, hkey]

/-- A pairwise-distinct projection stays pairwise distinct under a map
that preserves the projection on members. -/
theorem pairwise_map_of_proj_eq {α β : Type} (pf : α → β) (l : List α) (f : α → α)
    (hp : ∀ x ∈ l, pf (f x) = pf x)
    (h : l.Pairwise fun a b => pf a ≠ pf b) :
    (l.map f).Pairwise fun a b => pf a ≠ pf b := by
  rw [List.pairwise_map]
  exact h.imp_of_mem fun ha hb hR => by rw [hp _ ha, hp _ hb]; exact hR

/-- Appending a row whose projection differs from every member keeps
the projection pairwise distinct. -/
theorem pairwise_append_singleton {α β : Type} (pf : α → β) (l : List α) (y : α)
    (h : l.Pairwise fun a b => pf a ≠ pf b) (hy : ∀ x ∈ l, pf x ≠ pf y) :
    (l ++ [y]).Pairwise fun a b => pf a ≠ pf b := by
  rw [List.pairwise_append]
  refine ⟨h, List.pairwise_singleton _ _, fun a ha b hb => ?_⟩
  rw [List.mem_singleton] at hb
  subst hb
  exact hy a ha

/-- A fold of filters only ever removes elements. -/
theorem foldl_filter_sublist {α γ : Type} (f : γ → α → Bool) (D : List γ) :
    ∀ acc : List α, (D.foldl (fun acc e => acc.filter (f e)) acc).Sublist acc := by
  induction D with
  | nil => intro acc; exact List.Sublist.refl _
  | cons e D ih =>
    intro acc
    exact (ih _).trans (List.filter_sublist _)

/-- The grades component of the `deleteClass` loop only removes
grades. -/
theorem gradesLoop_fst_sublist (A : List Assessment) :
    ∀ (gr : List Grade) (as : List Assessment),
      ((A.foldl (fun (acc : List Grade × List Assessment) a =>
          ((acc.1.filter fun g => g.assessmentId == a.id).foldl
              (fun gacc g => gacc.filter fun x => !(x.id == g.id)) acc.1,
           acc.2.filter fun x => !(x.id == a.id))) (gr, as)).1).Sublist gr := by
  induction A with
  | nil => intro gr as; exact List.Sublist.refl _
  | cons a A ih =>
    intro gr as
    exact (ih _ _).trans (foldl_filter_sublist _ _ _)

/-! Shapes of the `Option`-returning operations when they succeed. -/

/-- A successful `updateClass` only rewrites the classes table. -/
theorem updateClass_some_eq (st : MemState) (id : Nat) (d : PartialClass)
    (p : Class × MemState) (h : st.updateClass id d = some p) :
    ∃ c, st.classes.find? (fun x => x.id == id) = some c ∧
      p.2 = { st with classes := st.classes.map fun x =>
        if x.id == id then applyPartialClass d c else x } := by
  unfold MemState.updateClass at h
  cases hf : st.classes.find? (fun x => x.id == id) with
  | none => rw [hf] at h; exact absurd h (by simp)
  | some c =>
    rw [hf] at h
    exact ⟨c, rfl, congrArg Prod.snd (Option.some.inj h).symm⟩

/-- A successful `updateAttendance` rewrites only the attendance
table, replacing the row with the given id by its patched version. -/
theorem updateAttendance_some_eq (st : MemState) (aid : Nat) (d : PartialAttendance)
    (p : Attendance × MemState) (h : st.updateAttendance aid d = some p) :
    ∃ r, st.attendanceRecords.find? (fun x => x.id == aid) = some r ∧
      p.2 = { st with attendanceRecords := st.attendanceRecords.map fun x =>
        if x.id == aid then applyPartialAttendance d r else x } := by
  unfold MemState.updateAttendance at h
  cases hf : st.attendanceRecords.find? (fun x => x.id == aid) with
  | none => rw [hf] at h; exact absurd h (by simp)
  | some r =>
    rw [hf] at h
    exact ⟨r, rfl, congrArg Prod.snd (Option.some.inj h).symm⟩

/-- A successful `updateGrade` rewrites only the grades table,
replacing the row with the given id by its patched version. -/
theorem updateGrade_some_eq (st : MemState) (now gid : Nat) (d : PartialGrade)
    (p : Grade × MemState) (h : st.updateGrade now gid d = some p) :
    ∃ g, st.grades.find? (fun x => x.id == gid) = some g ∧
      p.2 = { st with grades := st.grades.map fun x =>
        if x.id == gid then { applyPartialGrade d g with updatedAt := now } else x } := by
  unfold MemState.updateGrade at h
  cases hf : st.grades.find? (fun x => x.id == gid) with
  | none => rw [hf] at h; exact absurd h (by simp)
  | some g =>
    rw [hf] at h
    exact ⟨g, rfl, congrArg Prod.snd (Option.some.inj h).symm⟩

/-- A successful `deleteClass` only removes attendance rows and grade
rows, and leaves the id counters alone. -/
theorem deleteClass_some_sublists (st : MemState) (id : Nat) (st' : MemState)
    (h : st.deleteClass id = some st') :
    st'.attendanceRecords.Sublist st.attendanceRecords ∧
    st'.attendanceId = st.attendanceId ∧
    st'.grades.Sublist st.grades ∧ st'.gradeId = st.gradeId := by
  unfold MemState.deleteClass at h
  cases hf : st.classes.find? (fun c => c.id == id) with
  | none => rw [hf] at h; exact absurd h (by simp)
  | some c =>
    rw [hf] at h
    obtain rfl := (Option.some.inj h).symm
    exact ⟨foldl_filter_sublist _ _ _, rfl, gradesLoop_fst_sublist _ _ _, rfl⟩

/-- The attendance-table invariant carried through the induction: ids
below the counter, pairwise-distinct ids, and pairwise-distinct upsert
keys. -/
def AttInvariant (st : MemState) : Prop :=
  (∀ r ∈ st.attendanceRecords, r.id < st.attendanceId) ∧
  (st.attendanceRecords.Pairwise fun a b => a.id ≠ b.id) ∧
  attTripleUnique st.attendanceRecords

/-- The grade-table invariant carried through the induction. -/
def GradeInvariant (st : MemState) : Prop :=
  (∀ g ∈ st.grades, g.id < st.gradeId) ∧
  (st.grades.Pairwise fun a b => a.id ≠ b.id) ∧
  gradePairUnique st.grades

/-- Every state reachable without key-changing `updateAttendance` calls
satisfies the attendance invariant. -/
theorem reachAttSafe_invariant (st : MemState) (h : ReachAttSafe st) : AttInvariant st := by
  induction h with
  | init =>
    exact ⟨by simp [emptyMem], by simp [emptyMem], by simp [attTripleUnique, emptyMem]⟩
  | createUser st d h ih => exact ih
  | createClass st now d h ih => exact ih
  | updateClass st id d p h hu ih =>
    obtain ⟨c, -, hp2⟩ := updateClass_some_eq st id d p hu
    rw [AttInvariant, hp2]
    exact ih
  | deleteClass st id st' h hd ih =>
    obtain ⟨hsub, hcid, -, -⟩ := deleteClass_some_sublists st id st' hd
    refine ⟨fun r hr => ?_, List.Pairwise.sublist hsub ih.2.1,
      List.Pairwise.sublist hsub ih.2.2⟩
    rw [hcid]
    exact ih.1 r (hsub.subset hr)
  | enrollStudent st now d h ih =>
    rw [AttInvariant, MemState.enrollStudent]
    cases hf : st.enrollments.find? (fun e =>
        e.studentId == d.studentId && e.classId == d.classId) with
    | some e => exact ih
    | none => exact ih
  | createAttendance st d h ih =>
    rw [AttInvariant, MemState.createAttendance]
    cases hf : st.attendanceRecords.find? (fun r =>
        r.studentId == d.studentId && r.classId == d.classId && r.date.day == d.date.day) with
    | some r =>
      simp only []
      have hr : r ∈ st.attendanceRecords := List.mem_of_find?_eq_some hf
      have hp := overwrite_preserves (fun x : Attendance => x.id) attKey st.attendanceRecords r
        { r with status := d.status, comment := d.comment } hr ih.2.1 rfl rfl
      refine ⟨fun y hy => ?_, ?_, ?_⟩
      · obtain ⟨x, hx, rfl⟩ := List.mem_map.mp hy
        have := (hp x hx).1
        simp only [] at this ⊢
        rw [this]
        exact ih.1 x hx
      · exact pairwise_map_of_proj_eq (fun x : Attendance => x.id) _ _ (fun x hx => (hp x hx).1) ih.2.1
      · exact pairwise_map_of_proj_eq attKey _ _ (fun x hx => (hp x hx).2) ih.2.2
    | none =>
      simp only []
      have hnone := List.find?_eq_none.mp hf
      refine ⟨fun y hy => ?_, ?_, ?_⟩
      · rcases List.mem_append.mp hy with hy | hy
        · exact Nat.lt_succ_of_lt (ih.1 y hy)
        · rw [List.mem_singleton] at hy
          subst hy
          exact Nat.lt_succ_self _
      · refine pairwise_append_singleton (fun x : Attendance => x.id) _ _ ih.2.1 fun x hx => ?_
        exact Nat.ne_of_lt (ih.1 x hx)
      · refine pairwise_append_singleton attKey _ _ ih.2.2 fun x hx => ?_
        intro hk
        apply hnone x hx
        rw [attKey, attKey, Prod.mk.injEq, Prod.mk.injEq] at hk
        simp [hk.1, hk.2.1, hk.2.2]
  | updateAttendance st aid d p h hkey hu ih =>
    obtain ⟨r, hf, hp2⟩ := updateAttendance_some_eq st aid d p hu
    obtain ⟨hs, hc, hdt⟩ := hkey
    have haid : r.id = aid := by simpa using List.find?_some hf
    have hr : r ∈ st.attendanceRecords := List.mem_of_find?_eq_some hf
    have hid : (applyPartialAttendance d r).id = r.id := rfl
    have hkeyeq : attKey (applyPartialAttendance d r) = attKey r := by
      simp [attKey, applyPartialAttendance, hs, hc, hdt]
    have hp := overwrite_preserves (fun x : Attendance => x.id) attKey st.attendanceRecords r
      (applyPartialAttendance d r) hr ih.2.1 hid hkeyeq
    rw [AttInvariant, hp2, ← haid]
    refine ⟨fun y hy => ?_, ?_, ?_⟩
    · obtain ⟨x, hx, rfl⟩ := List.mem_map.mp hy
      have := (hp x hx).1
      simp only [] at this ⊢
      rw [this]
      exact ih.1 x hx
    · exact pairwise_map_of_proj_eq (fun x : Attendance => x.id) _ _ (fun x hx => (hp x hx).1) ih.2.1
    · exact pairwise_map_of_proj_eq attKey _ _ (fun x hx => (hp x hx).2) ih.2.2
  | createAssessment st now d h ih => exact ih
  | createGrade st now d h ih =>
    rw [AttInvariant, MemState.createGrade]
    cases hf : st.grades.find? (fun g =>
        g.studentId == d.studentId && g.assessmentId == d.assessmentId) with
    | some g => exact ih
    | none => exact ih
  | updateGrade st now gid d p h hu ih =>
    obtain ⟨g, -, hp2⟩ := updateGrade_some_eq st now gid d p hu
    rw [AttInvariant, hp2]
    exact ih

/-- Every state reachable without key-changing `updateGrade` calls
satisfies the grade invariant. -/
theorem reachGrSafe_invariant (st : MemState) (h : ReachGrSafe st) : GradeInvariant st := by
  induction h with
  | init =>
    exact ⟨by simp [emptyMem], by simp [emptyMem], by simp [gradePairUnique, emptyMem]⟩
  | createUser st d h ih => exact ih
  | createClass st now d h ih => exact ih
  | updateClass st id d p h hu ih =>
    obtain ⟨c, -, hp2⟩ := updateClass_some_eq st id d p hu
    rw [GradeInvariant, hp2]
    exact ih
  | deleteClass st id st' h hd ih =>
    obtain ⟨-, -, hsub, hcid⟩ := deleteClass_some_sublists st id st' hd
    refine ⟨fun g hg => ?_, List.Pairwise.sublist hsub ih.2.1,
      List.Pairwise.sublist hsub ih.2.2⟩
    rw [hcid]
    exact ih.1 g (hsub.subset hg)
  | enrollStudent st now d h ih =>
    rw [GradeInvariant, MemState.enrollStudent]
    cases hf : st.enrollments.find? (fun e =>
        e.studentId == d.studentId && e.classId == d.classId) with
    | some e => exact ih
    | none => exact ih
  | createAttendance st d h ih =>
    rw [GradeInvariant, MemState.createAttendance]
    cases hf : st.attendanceRecords.find? (fun r =>
        r.studentId == d.studentId && r.classId == d.classId && r.date.day == d.date.day) with
    | some r => exact ih
    | none => exact ih
  | updateAttendance st aid d p h hu ih =>
    obtain ⟨r, -, hp2⟩ := updateAttendance_some_eq st aid d p hu
    rw [GradeInvariant, hp2]
    exact ih
  | createAssessment st now d h ih => exact ih
  | createGrade st now d h ih =>
    rw [GradeInvariant, MemState.createGrade]
    cases hf : st.grades.find? (fun g =>
        g.studentId == d.studentId && g.assessmentId == d.assessmentId) with
    | some g =>
      simp only []
      have hg : g ∈ st.grades := List.mem_of_find?_eq_some hf
      have hp := overwrite_preserves (fun x : Grade => x.id) gradeKey st.grades g
        { g with score := d.score, comment := d.comment, updatedAt := now } hg ih.2.1 rfl rfl
      refine ⟨fun y hy => ?_, ?_, ?_⟩
      · obtain ⟨x, hx, rfl⟩ := List.mem_map.mp hy
        have := (hp x hx).1
        simp only [] at this ⊢
        rw [this]
        exact ih.1 x hx
      · exact pairwise_map_of_proj_eq (fun x : Grade => x.id) _ _ (fun x hx => (hp x hx).1) ih.2.1
      · exact pairwise_map_of_proj_eq gradeKey _ _ (fun x hx => (hp x hx).2) ih.2.2
    | none =>
      simp only []
      have hnone := List.find?_eq_none.mp hf
      refine ⟨fun y hy => ?_, ?_, ?_⟩
      · rcases List.mem_append.mp hy with hy | hy
        · exact Nat.lt_succ_of_lt (ih.1 y hy)
        · rw [List.mem_singleton] at hy
          subst hy
          exact Nat.lt_succ_self _
      · refine pairwise_append_singleton (fun x : Grade => x.id) _ _ ih.2.1 fun x hx => ?_
        exact Nat.ne_of_lt (ih.1 x hx)
      · refine pairwise_append_singleton gradeKey _ _ ih.2.2 fun x hx => ?_
        intro hk
        apply hnone x hx
        rw [gradeKey, gradeKey, Prod.mk.injEq] at hk
        simp [hk.1, hk.2]
  | updateGrade st now gid d p h hkey hu ih =>
    obtain ⟨g, hf, hp2⟩ := updateGrade_some_eq st now gid d p hu
    obtain ⟨hs, ha⟩ := hkey
    have hgid : g.id = gid := by simpa using List.find?_some hf
    have hg : g ∈ st.grades := List.mem_of_find?_eq_some hf
    have hid : ({ applyPartialGrade d g with updatedAt := now } : Grade).id = g.id := rfl
    have hkeyeq : gradeKey { applyPartialGrade d g with updatedAt := now } = gradeKey g := by
      simp [gradeKey, applyPartialGrade, hs, ha]
    have hp := overwrite_preserves (fun x : Grade => x.id) gradeKey st.grades g
      { applyPartialGrade d g with updatedAt := now } hg ih.2.1 hid hkeyeq
    rw [GradeInvariant, hp2, ← hgid]
    refine ⟨fun y hy => ?_, ?_, ?_⟩
    · obtain ⟨x, hx, rfl⟩ := List.mem_map.mp hy
      have := (hp x hx).1
      simp only [] at this ⊢
      rw [this]
      exact ih.1 x hx
    · exact pairwise_map_of_proj_eq (fun x : Grade => x.id) _ _ (fun x hx => (hp x hx).1) ih.2.1
    · exact pairwise_map_of_proj_eq gradeKey _ _ (fun x hx => (hp x hx).2) ih.2.2

/-! ### C5: settling the attendance-uniqueness claim -/

/-- First attendance mark: student 7, class 3, day 0. -/
def attIns1 : InsertAttendance := ⟨7, 3, ⟨0, 0⟩, "present", none⟩

/-- Second attendance mark: same student and class, day 1. -/
def attIns2 : InsertAttendance := ⟨7, 3, ⟨1, 0⟩, "absent", none⟩

/-- An `updateAttendance` payload that moves the record to day 0. -/
def attDatePatch : PartialAttendance := { date := some ⟨0, 0⟩ }

/-- The state after marking attendance for days 0 and 1. -/
def attTwoDays : MemState := ((emptyMem.createAttendance attIns1).2.createAttendance attIns2).2

/-- The state after additionally moving the day-1 record to day 0:
two records for student 7, class 3, the same date. -/
def attDupState : MemState :=
  { emptyMem with
    attendanceRecords :=
      [ ⟨1, 7, 3, ⟨0, 0⟩, "present", none⟩, ⟨2, 7, 3, ⟨0, 0⟩, "absent", none⟩ ],
    attendanceId := 3 }

/-- C5 counterexample: the storage operations (createAttendance twice,
then updateAttendance with a new date) reach a state holding two
attendance records with identical (classId, studentId, date), so the
claimed invariant over all reachable states fails. -/
theorem attendance_unique_counterexample :
    ReachMem attDupState ∧ ¬ attTripleUnique attDupState.attendanceRecords := by
  have hu : attTwoDays.updateAttendance 2 attDatePatch =
      some (⟨2, 7, 3, ⟨0, 0⟩, "absent", none⟩, attDupState) := by decide
  exact ⟨ReachMem.updateAttendance attTwoDays 2 attDatePatch
      (⟨2, 7, 3, ⟨0, 0⟩, "absent", none⟩, attDupState)
      (ReachMem.createAttendance _ attIns2
        (ReachMem.createAttendance _ attIns1 ReachMem.init)) hu,
    by unfold attTripleUnique; decide⟩

/-- C5 (amended): in every state reachable by the storage operations in
which `updateAttendance` is never given data changing a record's
studentId, classId or date, there is at most one attendance record per
(classId, studentId, date) triple; and `createAttendance` on a triple
that already has a record overwrites that record's status and comment
in place instead of inserting a second record. -/
theorem createAttendance_upsert (st : MemState) (h : ReachAttSafe st) :
    attTripleUnique st.attendanceRecords ∧
    ∀ d r, st.attendanceRecords.find? (fun x =>
        x.studentId == d.studentId && x.classId == d.classId &&
          x.date.day == d.date.day) = some r →
      (st.createAttendance d).1 = { r with status := d.status, comment := d.comment } ∧
      (st.createAttendance d).2.attendanceRecords
        = st.attendanceRecords.map (fun x =>
            if x.id == r.id then { r with status := d.status, comment := d.comment } else x) ∧
      (st.createAttendance d).2.attendanceRecords.length
        = st.attendanceRecords.length := by
  refine ⟨(reachAttSafe_invariant st h).2.2, ?_⟩
  intro d r hf
  rw [MemState.createAttendance, hf]
  exact ⟨rfl, rfl, by rw [List.length_map]⟩

/-- Witness for C5: the state reached by two `createAttendance` calls
satisfies the invariant, and re-marking day 0 overwrites in place
keeping two records. -/
theorem createAttendance_upsert_witness :
    ReachAttSafe attTwoDays ∧
    attTripleUnique attTwoDays.attendanceRecords ∧
    (attTwoDays.createAttendance ⟨7, 3, ⟨0, 5⟩, "late", some "overslept"⟩).2.attendanceRecords.length
      = attTwoDays.attendanceRecords.length := by
  have hreach : ReachAttSafe attTwoDays :=
    ReachAttSafe.createAttendance _ attIns2
      (ReachAttSafe.createAttendance _ attIns1 ReachAttSafe.init)
  have h := createAttendance_upsert attTwoDays hreach
  exact ⟨hreach, h.1,
    (h.2 ⟨7, 3, ⟨0, 5⟩, "late", some "overslept"⟩ ⟨1, 7, 3, ⟨0, 0⟩, "present", none⟩
      (by decide)).2.2⟩

/-! ### C6: settling the grade-uniqueness claim -/

/-- First grade: student 7, assessment 1. -/
def grIns1 : InsertGrade := ⟨7, 1, 90, none⟩

/-- Second grade: same student, assessment 2. -/
def grIns2 : InsertGrade := ⟨7, 2, 80, none⟩

/-- An `updateGrade` payload that moves the grade to assessment 1. -/
def grAssessmentPatch : PartialGrade := { assessmentId := some 1 }

/-- The state after grading assessments 1 and 2 for student 7. -/
def grTwo : MemState := ((emptyMem.createGrade 0 grIns1).2.createGrade 0 grIns2).2

/-- The state after additionally moving the second grade onto
assessment 1: two grades for the (assessment 1, student 7) pair. -/
def grDupState : MemState :=
  { emptyMem with
    grades := [ ⟨1, 7, 1, 90, none, 0⟩, ⟨2, 7, 1, 80, none, 5⟩ ],
    gradeId := 3 }

/-- C6 counterexample: the storage operations (createGrade twice, then
updateGrade with a new assessmentId) reach a state holding two grades
for the same (assessmentId, studentId) pair, so the claimed invariant
over all reachable states fails. -/
theorem grade_unique_counterexample :
    ReachMem grDupState ∧ ¬ gradePairUnique grDupState.grades := by
  have hu : grTwo.updateGrade 5 2 grAssessmentPatch =
      some (⟨2, 7, 1, 80, none, 5⟩, grDupState) := by decide
  exact ⟨ReachMem.updateGrade grTwo 5 2 grAssessmentPatch
      (⟨2, 7, 1, 80, none, 5⟩, grDupState)
      (ReachMem.createGrade _ 0 grIns2
        (ReachMem.createGrade _ 0 grIns1 ReachMem.init)) hu,
    by unfold gradePairUnique; decide⟩

/-- C6 (amended): in every state reachable by the storage operations in
which `updateGrade` is never given data changing a grade's studentId or
assessmentId, a student has at most one grade per assessment; and
`createGrade` for an (assessmentId, studentId) pair that already has a
grade overwrites that grade's score and comment and refreshes its
`updatedAt` instead of inserting a second row. -/
theorem createGrade_upsert (st : MemState) (h : ReachGrSafe st) :
    gradePairUnique st.grades ∧
    ∀ now d g, st.grades.find? (fun x =>
        x.studentId == d.studentId && x.assessmentId == d.assessmentId) = some g →
      (st.createGrade now d).1
        = { g with score := d.score, comment := d.comment, updatedAt := now } ∧
      (st.createGrade now d).2.grades
        = st.grades.map (fun x =>
            if x.id == g.id then
              { g with score := d.score, comment := d.comment, updatedAt := now }
            else x) ∧
      (st.createGrade now d).2.grades.length = st.grades.length := by
  refine ⟨(reachGrSafe_invariant st h).2.2, ?_⟩
  intro now d g hf
  rw [MemState.createGrade, hf]
  exact ⟨rfl, rfl, by rw [List.length_map]⟩

/-- Witness for C6: the state reached by two `createGrade` calls
satisfies the invariant, and re-grading assessment 1 overwrites in
place (score 95, fresh updatedAt) keeping two rows. -/
theorem createGrade_upsert_witness :
    ReachGrSafe grTwo ∧
    gradePairUnique grTwo.grades ∧
    (grTwo.createGrade 9 ⟨7, 1, 95, some "regraded"⟩).1 = ⟨1, 7, 1, 95, some "regraded", 9⟩ ∧
    (grTwo.createGrade 9 ⟨7, 1, 95, some "regraded"⟩).2.grades.length = grTwo.grades.length := by
  have hreach : ReachGrSafe grTwo :=
    ReachGrSafe.createGrade _ 0 grIns2 (ReachGrSafe.createGrade _ 0 grIns1 ReachGrSafe.init)
  have h := createGrade_upsert grTwo hreach
  have hcase := h.2 9 ⟨7, 1, 95, some "regraded"⟩ ⟨1, 7, 1, 90, none, 0⟩ (by decide)
  exact ⟨hreach, h.1, hcase.1, hcase.2.2⟩

/-! ## Claim C1: the enrollment summary query

`Storage.getEnrollmentsByStudent` (sqlite variant with the full
aggregation) fans out per enrolled class: attendance rate from the
student's attendance rows, grade average from a left join of the
class's assessments with the student's grades, and the teacher name
joined from the users table. -/

/-- One element of the enriched result: the class row spread together
with the joined teacher name, the attendance percentage string and the
grade display. -/
structure EnrollView where
  cls : Class
  teacher : String
  attendance : String
  grade : GradeDisplay
deriving DecidableEq, Repr

/-- The per-class attendance cell: `Math.round((present / total) * 100)`
with `0` for no records, rendered with a percent sign. -/
def classAttendanceStr (st : Store) (studentId cid : Nat) : String :=
  let records := st.attendance.filter fun r => r.studentId == studentId && r.classId == cid
  let present := (records.filter fun r => r.status == "present").length
  let rate : ℤ :=
    if records.length > 0 then jsRound (((present : ℚ) / (records.length : ℚ)) * 100) else 0
  toString rate ++ "%"

/-- The per-class grade cell: left-join the class's assessments with
the student's grades, keep rows with a score, and average them to one
decimal, with `"N/A"` when the join is empty or has no scores. -/
def classGradeDisplay (st : Store) (studentId cid : Nat) : GradeDisplay :=
  let rows := (st.assessments.filter fun a => a.classId == cid).flatMap fun a =>
    let gs := st.grades.filter fun g => g.assessmentId == a.id && g.studentId == studentId
    if gs.isEmpty then [(a, (none : Option Grade))] else gs.map fun g => (a, some g)
  if rows.isEmpty then .na
  else
    let scored := rows.filterMap fun rg => rg.2
    if scored.isEmpty then .na
    else
      let totalScore : ℤ := (scored.map fun g => g.score).sum
      .tenths (jsToFixed1 ((totalScore : ℚ) / (scored.length : ℚ)))

/-- `teachers.find(t => t.id === classItem.teacherId)?.name ||
'Unknown'`: the `||` falls through to `'Unknown'` both when no teacher
is found and when the found teacher's name is the falsy empty
string. -/
def teacherName (teachers : List User) (tid : Nat) : String :=
  match teachers.find? fun t => t.id == tid with
  | some t => if t.name = "" then "Unknown" else t.name
  | none => "Unknown"

/-- `Storage.getEnrollmentsByStudent(studentId)`: the student's
enrollments, their classes, the teachers of those classes, and the
per-class attendance and grade aggregates, with the early empty
returns of the source. -/
def Store.getEnrollmentsByStudent (st : Store) (studentId : Nat) : List EnrollView :=
  let enrollments := st.enrollments.filter fun e => e.studentId == studentId
  if enrollments.isEmpty then []
  else
    let classIds := enrollments.map fun e => e.classId
    let classes := st.classes.filter fun c => classIds.contains c.id
    if classes.isEmpty then []
    else
      let teacherIds := classes.map fun c => c.teacherId
      let teachers := st.users.filter fun u => teacherIds.contains u.id
      classes.map fun classItem =>
        { cls := classItem,
          teacher := teacherName teachers classItem.teacherId,
          attendance := classAttendanceStr st studentId classItem.id,
          grade := classGradeDisplay st studentId classItem.id }

/-- The class ids the student is enrolled in, from the claim's
wording. -/
def enrolledClassIds (st : Store) (studentId : Nat) : List Nat :=
  (st.enrollments.filter fun e => e.studentId == studentId).map fun e => e.classId

/-- The claim's attendance rate: present count over total records for
the student and class, as a rounded integer percentage, `0` without
records. -/
def attendanceRateSpec (st : Store) (studentId cid : Nat) : ℤ :=
  let recs := st.attendance.filter fun r => r.studentId == studentId && r.classId == cid
  if recs.length = 0 then 0
  else jsRound ((100 * (((recs.filter fun r => r.status == "present").length : ℚ))) /
    (recs.length : ℚ))

/-- The claim's grade average: the mean of the student's scores across
the class's assessments to one decimal place, `"N/A"` without grades
(the scores are `studentScoresInClass`, shared with the grade-detail
endpoint). -/
def gradeAverageSpec (st : Store) (studentId cid : Nat) : GradeDisplay :=
  if studentScoresInClass st studentId cid = [] then .na
  else .tenths (jsToFixed1 (((studentScoresInClass st studentId cid).sum : ℚ) /
    ((studentScoresInClass st studentId cid).length : ℚ)))

/-! Lemmas for the C1 proof. -/

/-- Filtering by a coarser predicate first does not change a `find?`
search. -/
theorem find?_filter_of_imp {α : Type} (p q : α → Bool) (l : List α)
    (himp : ∀ x, p x = true → q x = true) :
    (l.filter q).find? p = l.find? p := by
  induction l with
  | nil => rfl
  | cons a l ih =>
    cases hq : q a
    · have hp : p a = false := by
        cases hp : p a
        · rfl
        · rw [himp a hp] at hq
          exact absurd hq (by simp)
      rw [List.filter_cons, if_neg (by simp [hq]), List.find?_cons, hp, ih]
    · cases hp : p a
      · rw [List.filter_cons, if_pos hq, List.find?_cons, hp, List.find?_cons, hp, ih]
      · rw [List.filter_cons, if_pos hq, List.find?_cons, hp, List.find?_cons, hp]

/-- In a list with pairwise-distinct ids, `find?` by the id of a member
returns that member. -/
theorem find?_eq_of_mem_of_ids_nodup {α : Type} (idf : α → Nat) (l : List α) (u : α)
    (tid : Nat) (hnd : l.Pairwise fun a b => idf a ≠ idf b) (hu : u ∈ l)
    (hid : idf u = tid) :
    l.find? (fun x => idf x == tid) = some u := by
  induction l with
  | nil => cases hu
  | cons a l ih =>
    rw [List.pairwise_cons] at hnd
    rcases List.mem_cons.mp hu with rfl | hmem
    · rw [List.find?_cons, show (idf u == tid) = true by simp [hid]]
    · cases hpa : (idf a == tid)
      · rw [List.find?_cons, hpa]
        exact ih hnd.2 hmem
      · exfalso
        have : idf a = tid := by simpa using hpa
        exact hnd.1 u hmem (this.trans hid.symm)

/-- Splitting a filter along a pointwise-disjoint disjunction of
predicates, up to permutation. -/
theorem filter_or_disjoint_perm {α : Type} (p q : α → Bool) (l : List α)
    (hdisj : ∀ x, ¬(p x = true ∧ q x = true)) :
    (l.filter fun x => p x || q x).Perm (l.filter p ++ l.filter q) := by
  induction l with
  | nil => simp
  | cons a l ih =>
    cases hp : p a <;> cases hq : q a
    · rw [List.filter_cons, List.filter_cons, List.filter_cons,
        if_neg (by simp [hp, hq]), if_neg (by simp [hp]), if_neg (by simp [hq])]
      exact ih
    · rw [List.filter_cons, List.filter_cons, List.filter_cons,
        if_pos (by simp [hp, hq]), if_neg (by simp [hp]), if_pos (by simp [hq])]
      exact (ih.cons a).trans List.perm_middle.symm
    · rw [List.filter_cons, List.filter_cons, List.filter_cons,
        if_pos (by simp [hp]), if_pos (by simp [hp]), if_neg (by simp [hq])]
      exact ih.cons a
    · exact absurd ⟨hp, hq⟩ (hdisj a)

/-- The left join restricted to rows carrying a grade is the plain
concatenation of the per-assessment grade filters. -/
theorem filterMap_snd_leftJoin (A : List Assessment) (G : List Grade) (sid : Nat) :
    ((A.flatMap fun a =>
        let gs := G.filter fun g => g.assessmentId == a.id && g.studentId == sid
        if gs.isEmpty then [(a, (none : Option Grade))] else gs.map fun g => (a, some g)).filterMap
      fun rg => rg.2)
      = A.flatMap fun a => G.filter fun g => g.assessmentId == a.id && g.studentId == sid := by
  induction A with
  | nil => rfl
  | cons a A ih =>
    rw [List.flatMap_cons, List.flatMap_cons, List.filterMap_append, ih]
    congr 1
    by_cases hgs : (G.filter fun g => g.assessmentId == a.id && g.studentId == sid).isEmpty
    · rw [if_pos hgs, List.isEmpty_iff.mp hgs]
      rfl
    · rw [if_neg hgs]
      rw [List.filterMap_map]
      have : ((fun rg : Assessment × Option Grade => rg.2) ∘ fun g : Grade => (a, some g))
          = some := rfl
      rw [this, List.filterMap_some]

/-- The joined grade rows are a permutation of the direct filter of the
grades table, provided assessment ids are pairwise distinct. -/
theorem flatMap_grade_filter_perm (A : List Assessment) (G : List Grade) (sid : Nat)
    (hA : A.Pairwise fun a b => a.id ≠ b.id) :
    (A.flatMap fun a => G.filter fun g => g.assessmentId == a.id && g.studentId == sid).Perm
      (G.filter fun g => g.studentId == sid && (A.map fun a => a.id).contains g.assessmentId) := by
  induction A with
  | nil =>
    simp only [List.flatMap_nil, List.map_nil]
    have : ∀ g : Grade,
        (g.studentId == sid && ([] : List Nat).contains g.assessmentId) = false := by
      intro g
      simp [List.contains]
    rw [List.filter_congr fun g _ => this g]
    simp
  | cons a A ih =>
    rw [List.pairwise_cons] at hA
    have hsplit : ∀ g : Grade,
        (g.studentId == sid && ((a :: A).map fun a => a.id).contains g.assessmentId)
          = ((g.assessmentId == a.id && g.studentId == sid) ||
             (g.studentId == sid && (A.map fun a => a.id).contains g.assessmentId)) := by
      intro g
      rw [List.map_cons, List.contains_cons, Bool.and_or_distrib_left]
      cases h1 : (g.studentId == sid) <;> cases h2 : (g.assessmentId == a.id) <;> simp [h1, h2]
    rw [List.filter_congr fun g _ => hsplit g]
    have hdisj : ∀ g : Grade,
        ¬((g.assessmentId == a.id && g.studentId == sid) = true ∧
          (g.studentId == sid && (A.map fun a => a.id).contains g.assessmentId) = true) := by
      intro g ⟨h1, h2⟩
      rw [Bool.and_eq_true] at h1 h2
      have hmem : a.id ∈ A.map fun a => a.id := by
        have := h2.2
        rw [show g.assessmentId = a.id by simpa using h1.1] at this
        simpa [List.contains, List.elem_iff] using this
      obtain ⟨b, hb, hbid⟩ := List.mem_map.mp hmem
      exact hA.1 b hb hbid.symm
    refine List.Perm.symm ((filter_or_disjoint_perm _ _ G hdisj).trans ?_)
    rw [List.flatMap_cons]
    exact List.Perm.append_left _ (ih hA.2).symm

/-- Each assessment contributes at least one row to the left join, so
the join is empty exactly when the class has no assessments. -/
theorem leftJoin_isEmpty_iff (A : List Assessment) (G : List Grade) (sid : Nat) :
    (A.flatMap fun a =>
        let gs := G.filter fun g => g.assessmentId == a.id && g.studentId == sid
        if gs.isEmpty then [(a, (none : Option Grade))] else gs.map fun g => (a, some g))
      = [] ↔ A = [] := by
  constructor
  · intro h
    cases A with
    | nil => rfl
    | cons a A =>
      exfalso
      rw [List.flatMap_cons, List.append_eq_nil] at h
      have h1 := h.1
      by_cases hgs : (G.filter fun g => g.assessmentId == a.id && g.studentId == sid).isEmpty
      · rw [if_pos hgs] at h1
        exact absurd h1 (by simp)
      · rw [if_neg hgs] at h1
        rw [List.map_eq_nil_iff] at h1
        rw [h1] at hgs
        exact hgs rfl
  · intro h
    rw [h]
    rfl

/-- The attendance cell equals the claim's attendance rate. -/
theorem classAttendanceStr_spec (st : Store) (sid cid : Nat) :
    classAttendanceStr st sid cid = toString (attendanceRateSpec st sid cid) ++ "%" := by
  simp only [classAttendanceStr, attendanceRateSpec]
  congr 2
  by_cases h : (st.attendance.filter fun r => r.studentId == sid && r.classId == cid).length = 0
  · rw [if_neg (by omega), if_pos h]
  · rw [if_pos (by omega), if_neg h]
    congr 1
    ring

/-- The grade cell equals the claim's grade average, provided
assessment ids are pairwise distinct. -/
theorem classGradeDisplay_spec (st : Store) (sid cid : Nat)
    (ha : st.assessments.Pairwise fun a b => a.id ≠ b.id) :
    classGradeDisplay st sid cid = gradeAverageSpec st sid cid := by
  have hA : (st.assessments.filter fun a => a.classId == cid).Pairwise
      fun a b => a.id ≠ b.id := List.Pairwise.sublist (List.filter_sublist _) ha
  have hperm := flatMap_grade_filter_perm (st.assessments.filter fun a => a.classId == cid)
    st.grades sid hA
  simp only [classGradeDisplay, gradeAverageSpec, studentScoresInClass]
  by_cases hrows : ((st.assessments.filter fun a => a.classId == cid).flatMap fun a =>
      let gs := st.grades.filter fun g => g.assessmentId == a.id && g.studentId == sid
      if gs.isEmpty then [(a, (none : Option Grade))]
      else gs.map fun g => (a, some g)).isEmpty
  · rw [if_pos hrows]
    have hAnil : (st.assessments.filter fun a => a.classId == cid) = [] :=
      (leftJoin_isEmpty_iff _ _ _).mp (List.isEmpty_iff.mp hrows)
    have hnone : ∀ g : Grade,
        (g.studentId == sid &&
          ((st.assessments.filter fun a => a.classId == cid).map fun a => a.id).contains
            g.assessmentId) = false := by
      intro g
      rw [hAnil]
      simp [List.contains]
    rw [List.filter_congr fun g _ => hnone g]
    simp
  · rw [if_neg hrows]
    have hscored := filterMap_snd_leftJoin (st.assessments.filter fun a => a.classId == cid)
      st.grades sid
    have hperm2 := hscored ▸ hperm
    by_cases hsc : (((st.assessments.filter fun a => a.classId == cid).flatMap fun a =>
        let gs := st.grades.filter fun g => g.assessmentId == a.id && g.studentId == sid
        if gs.isEmpty then [(a, (none : Option Grade))]
        else gs.map fun g => (a, some g)).filterMap fun rg => rg.2).isEmpty
    · rw [if_pos hsc]
      have hnil : (st.grades.filter fun g => g.studentId == sid &&
          ((st.assessments.filter fun a => a.classId == cid).map fun a => a.id).contains
            g.assessmentId) = [] := by
        have := hperm2.length_eq
        rw [List.isEmpty_iff.mp hsc] at this
        exact List.length_eq_zero.mp this.symm
      rw [if_pos (by rw [hnil]; rfl)]
    · rw [if_neg hsc]
      have hne : (st.grades.filter fun g => g.studentId == sid &&
          ((st.assessments.filter fun a => a.classId == cid).map fun a => a.id).contains
            g.assessmentId) ≠ [] := by
        intro hnil
        rw [hnil] at hperm2
        rw [List.isEmpty_iff] at hsc
        exact hsc (List.Perm.eq_nil hperm2)
      rw [if_neg (by
        intro hmap
        exact hne (List.map_eq_nil_iff.mp hmap))]
      have hsum : ((((st.assessments.filter fun a => a.classId == cid).flatMap fun a =>
            let gs := st.grades.filter fun g => g.assessmentId == a.id && g.studentId == sid
            if gs.isEmpty then [(a, (none : Option Grade))]
            else gs.map fun g => (a, some g)).filterMap fun rg => rg.2).map fun g => g.score).sum
          = ((st.grades.filter fun g => g.studentId == sid &&
              ((st.assessments.filter fun a => a.classId == cid).map fun a => a.id).contains
                g.assessmentId).map fun g => g.score).sum :=
        (hperm2.map fun g => g.score).sum_eq
      have hlen := hperm2.length_eq
      rw [List.length_map, hsum, hlen]

/-- Store with an empty-named teacher: the registration schema accepts
`name: ""`, and the users column is merely NOT NULL. -/
def emptyNameStore : Store :=
  { users := [⟨1, "teach", "secret123", "teacher", ""⟩],
    classes := [⟨3, "Math", "mathematics", none, "10", "MATH-1", 1, 0⟩],
    enrollments := [⟨1, 7, 3, 0⟩],
    attendance := [], assessments := [], grades := [] }

/-- C1 counterexample: when the enrolled class's teacher has the empty
string as name, the entry does not carry the teacher's name — the
`?.name || 'Unknown'` fallback fires on the falsy empty string and the
entry reads `"Unknown"` instead. -/
theorem getEnrollmentsByStudent_teacher_counterexample :
    ∃ v ∈ emptyNameStore.getEnrollmentsByStudent 7,
      ∃ u ∈ emptyNameStore.users, u.id = v.cls.teacherId ∧ v.teacher ≠ u.name := by
  decide

/-- C1 (amended): for every student, the enrollment summary has one
entry per enrolled class (the classes whose id appears among the
student's enrollments); each entry carries the class's teacher's name
whenever that stored name is nonempty — and `"Unknown"` when the
teacher's stored name is the falsy empty string — together with the
claim's attendance rate as a percent string and the claim's grade
average, provided user ids and assessment ids are pairwise distinct. -/
theorem getEnrollmentsByStudent_spec (st : Store) (sid : Nat)
    (hu : st.users.Pairwise fun a b => a.id ≠ b.id)
    (ha : st.assessments.Pairwise fun a b => a.id ≠ b.id) :
    ((st.getEnrollmentsByStudent sid).map fun v => v.cls)
      = st.classes.filter (fun c => (enrolledClassIds st sid).contains c.id) ∧
    ∀ v ∈ st.getEnrollmentsByStudent sid,
      (∀ u ∈ st.users, u.id = v.cls.teacherId →
        (u.name ≠ "" → v.teacher = u.name) ∧ (u.name = "" → v.teacher = "Unknown")) ∧
      v.attendance = toString (attendanceRateSpec st sid v.cls.id) ++ "%" ∧
      v.grade = gradeAverageSpec st sid v.cls.id := by
  simp only [Store.getEnrollmentsByStudent, enrolledClassIds]
  by_cases hE : (st.enrollments.filter fun e => e.studentId == sid).isEmpty
  · rw [if_pos hE]
    constructor
    · have hnil := List.isEmpty_iff.mp hE
      rw [hnil]
      have : ∀ c : Class, (([] : List Enrollment).map fun e => e.classId).contains c.id
          = false := by
        intro c
        simp [List.contains]
      rw [List.filter_congr fun c _ => this c]
      simp
    · intro v hv
      exact absurd hv (by simp)
  · rw [if_neg hE]
    by_cases hC : (st.classes.filter fun c =>
        ((st.enrollments.filter fun e => e.studentId == sid).map fun e => e.classId).contains
          c.id).isEmpty
    · rw [if_pos hC]
      refine ⟨?_, fun v hv => absurd hv (by simp)⟩
      rw [List.isEmpty_iff.mp hC]
      rfl
    · rw [if_neg hC]
      constructor
      · rw [List.map_map]
        exact List.map_id _
      · intro v hv
        obtain ⟨c, hc, rfl⟩ := List.mem_map.mp hv
        refine ⟨?_, classAttendanceStr_spec st sid c.id, classGradeDisplay_spec st sid c.id ha⟩
        intro u humem huid
        have himp : ∀ x : User, (x.id == c.teacherId) = true →
            (((st.classes.filter fun c =>
                ((st.enrollments.filter fun e => e.studentId == sid).map fun e =>
                  e.classId).contains c.id).map fun c => c.teacherId).contains x.id) = true := by
          intro x hx
          have hxid : x.id = c.teacherId := by simpa using hx
          rw [hxid]
          have hmem : c.teacherId ∈ (st.classes.filter fun c =>
              ((st.enrollments.filter fun e => e.studentId == sid).map fun e =>
                e.classId).contains c.id).map fun c => c.teacherId :=
            List.mem_map_of_mem _ hc
          simpa [List.contains, List.elem_eq_mem] using hmem
        have hfind : ((st.users.filter fun x =>
            ((st.classes.filter fun c =>
              ((st.enrollments.filter fun e => e.studentId == sid).map fun e =>
                e.classId).contains c.id).map fun c => c.teacherId).contains x.id).find?
              fun t => t.id == c.teacherId) = some u := by
          rw [find?_filter_of_imp _ _ _ himp]
          exact find?_eq_of_mem_of_ids_nodup (fun x : User => x.id) st.users u c.teacherId
            hu humem huid
        refine ⟨fun hne => ?_, fun hemp => ?_⟩
        · show teacherName _ c.teacherId = u.name
          simp only [teacherName, hfind, if_neg hne]
        · show teacherName _ c.teacherId = "Unknown"
          simp only [teacherName, hfind, if_pos hemp]

/-- Store for the C1 witness: teacher John Smith teaches class 3;
student 7 is enrolled, has attendance [present, present, absent, late]
(rate 50) and grades 85, 88, 78 (average "83.7"). -/
def c1Store : Store :=
  { users :=
      [ ⟨1, "teacher1", "password123", "teacher", "John Smith"⟩,
        ⟨7, "student1", "password123", "student", "Alice Johnson"⟩ ],
    classes := [⟨3, "Mathematics 101", "mathematics", none, "10", "MATH-A1B2C3", 1, 0⟩],
    enrollments := [⟨1, 7, 3, 0⟩],
    attendance :=
      [ ⟨1, 7, 3, "present", 0⟩, ⟨2, 7, 3, "present", 1⟩,
        ⟨3, 7, 3, "absent", 2⟩, ⟨4, 7, 3, "late", 3⟩ ],
    assessments := [ ⟨1, 3, "Quiz 1", 0⟩, ⟨2, 3, "Midterm", 0⟩, ⟨3, 3, "Final", 0⟩ ],
    grades :=
      [ ⟨1, 7, 1, 85, none, 0⟩, ⟨2, 7, 2, 88, none, 0⟩, ⟨3, 7, 3, 78, none, 0⟩ ] }

/-- Witness for C1 at the concrete store. -/
theorem getEnrollmentsByStudent_spec_witness :
    (c1Store.users.Pairwise fun a b => a.id ≠ b.id) ∧
    (c1Store.assessments.Pairwise fun a b => a.id ≠ b.id) ∧
    ((c1Store.getEnrollmentsByStudent 7).map fun v => v.cls)
      = c1Store.classes.filter (fun c => (enrolledClassIds c1Store 7).contains c.id) ∧
    ∀ v ∈ c1Store.getEnrollmentsByStudent 7,
      (∀ u ∈ c1Store.users, u.id = v.cls.teacherId →
        (u.name ≠ "" → v.teacher = u.name) ∧ (u.name = "" → v.teacher = "Unknown")) ∧
      v.attendance = toString (attendanceRateSpec c1Store 7 v.cls.id) ++ "%" ∧
      v.grade = gradeAverageSpec c1Store 7 v.cls.id := by
  have h := getEnrollmentsByStudent_spec c1Store 7 (by decide) (by decide)
  exact ⟨by decide, by decide, h.1, h.2⟩

end TSA
